import Mathlib

/-!
# Verification of the FocusFrame cursor-smoothing core

This file gives a shallow embedding, in Lean 4, of the cursor-motion
reconstruction and compositing pipeline of the video-effects processor
(`src/lib.rs`, `src/renderer.rs`, `src/constants.rs`, `src/types.rs`) of the
FocusFrame repository, and settles the specification claims about it.

Modelling conventions:
* `f32`/`f64` arithmetic is idealized as exact arithmetic: `ℚ` where the
  modelled code is square-root free (so every definition is executable and
  decidable), and `ℝ` where square roots or real powers occur
  (spline sampling, arc lengths, kinematic profiles).
* Machine-float casts (`as u8`, `as i32`, `as usize`) are modelled with
  explicit floor / truncation / saturation on `ℤ`/`ℕ`.
* Rust structs keep their field and function names; `&mut` out-parameters
  become components of the returned value; byte buffers become total
  functions `ℕ → ℕ` together with an explicit length.
* `while` loops with an exact arithmetic progression are modelled as maps
  over `List.range` of the exact iteration count; fold-style loops become
  `List.foldl`.
-/

set_option maxHeartbeats 1000000

namespace FocusFrame

/-! ## Constants from `constants.rs` (exact rational values, read in `ℝ`) -/

/-- Maximum cursor velocity in pixels per second (`VELOCITY_MAX_PX_PER_SEC = 1800.0`). -/
noncomputable def VELOCITY_MAX_PX_PER_SEC : ℝ := 1800

/-- Maximum cursor acceleration (`ACCELERATION_MAX_PX_PER_SEC2 = 4000.0`). -/
noncomputable def ACCELERATION_MAX_PX_PER_SEC2 : ℝ := 4000

/-- `SPRING_MASS_DEFAULT = 1.0`. -/
noncomputable def SPRING_MASS_DEFAULT : ℝ := 1

/-- `RESPONSIVENESS_MAX_SETTLING_SEC = 0.06`. -/
noncomputable def RESPONSIVENESS_MAX_SETTLING_SEC : ℝ := 6 / 100

/-- `RESPONSIVENESS_MIN_SETTLING_SEC = 0.40`. -/
noncomputable def RESPONSIVENESS_MIN_SETTLING_SEC : ℝ := 40 / 100

/-- `SMOOTHNESS_MIN_DAMPING = 0.7`. -/
noncomputable def SMOOTHNESS_MIN_DAMPING : ℝ := 7 / 10

/-- `SMOOTHNESS_MAX_DAMPING = 1.5`. -/
noncomputable def SMOOTHNESS_MAX_DAMPING : ℝ := 15 / 10

/-- `ALIGNMENT_SAMPLE_COUNT = 10`. -/
def ALIGNMENT_SAMPLE_COUNT : ℕ := 10

/-- `ALIGNMENT_MAX_WINDOW_MS = 500.0` (exact in `ℚ`). -/
def ALIGNMENT_MAX_WINDOW_MS : ℚ := 500

/-! ## Spring parameter derivation (`derive_spring_params`, lib.rs lines 63-100) -/

/-- Rust `f64::clamp(lo, hi)`: for `lo ≤ hi` it is `min (max x lo) hi`. -/
noncomputable def rustClamp (x lo hi : ℝ) : ℝ := min (max x lo) hi

/-- The settling-time computation inside `derive_spring_params`:
clamp the responsiveness to `[0,1]`, evaluate
`MIN_SETTLING + (1 - r) * (MIN_SETTLING - MAX_SETTLING)` and clamp the result
into `[MAX_SETTLING, MIN_SETTLING]` (lib.rs lines 64-75). -/
noncomputable def settling_time_of (responsiveness : ℝ) : ℝ :=
  let r := rustClamp responsiveness 0 1
  rustClamp
    (RESPONSIVENESS_MIN_SETTLING_SEC +
      (1 - r) * (RESPONSIVENESS_MIN_SETTLING_SEC - RESPONSIVENESS_MAX_SETTLING_SEC))
    RESPONSIVENESS_MAX_SETTLING_SEC RESPONSIVENESS_MIN_SETTLING_SEC

/-- `derive_spring_params` (lib.rs lines 63-100): returns `(k, c, m)` with
`ζ` affinely interpolated from the clamped smoothness, `ωₙ = 4/(ζ·Tₛ)`,
`k = ωₙ²·m` and `c = 2·ζ·ωₙ·m`. -/
noncomputable def derive_spring_params (responsiveness smoothness : ℝ) : ℝ × ℝ × ℝ :=
  let s := rustClamp smoothness 0 1
  let settlingTime := settling_time_of responsiveness
  let zeta := SMOOTHNESS_MIN_DAMPING + s * (SMOOTHNESS_MAX_DAMPING - SMOOTHNESS_MIN_DAMPING)
  let m := SPRING_MASS_DEFAULT
  let omegaN := 4 / (zeta * settlingTime)
  (omegaN * omegaN * m, 2 * zeta * omegaN * m, m)

/-! ## Timestamp alignment state (`AlignmentState`, lib.rs lines 107-188)

The `f64` samples are modelled exactly in `ℚ`; the `Vec` of samples is a
`List` with push at the tail, and `sort_by(partial_cmp)` is an ascending
sort (insertion sort below). -/

/-- `AlignmentState` (lib.rs lines 107-113). -/
structure AlignmentState where
  samples : List ℚ
  max_samples : ℕ
  max_window_ms : ℚ
  first_frame_ms : Option ℚ
  computed_offset : Option ℚ
  deriving Repr, DecidableEq

/-- `AlignmentState::new` (lib.rs lines 116-124). -/
def AlignmentState.new : AlignmentState :=
  { samples := []
    max_samples := ALIGNMENT_SAMPLE_COUNT
    max_window_ms := ALIGNMENT_MAX_WINDOW_MS
    first_frame_ms := none
    computed_offset := none }

/-- Ascending insertion of one element into a sorted list. -/
def insertSorted (x : ℚ) : List ℚ → List ℚ
  | [] => [x]
  | y :: ys => if x ≤ y then x :: y :: ys else y :: insertSorted x ys

/-- Ascending sort, modelling `sorted.sort_by(|a, b| a.partial_cmp(b) ...)`. -/
def sortSamples : List ℚ → List ℚ
  | [] => []
  | x :: xs => insertSorted x (sortSamples xs)

/-- `AlignmentState::compute_offset` (lib.rs lines 155-179): empty buffer
gives offset `0`; otherwise the median of the sorted samples (the mean of the
two middle values when the count is even). -/
def AlignmentState.compute_offset (st : AlignmentState) : AlignmentState :=
  if st.samples = [] then
    { st with computed_offset := some 0 }
  else
    let sorted := sortSamples st.samples
    let median :=
      if sorted.length % 2 = 0 then
        (sorted.getD (sorted.length / 2 - 1) 0 + sorted.getD (sorted.length / 2) 0) / 2
      else
        sorted.getD (sorted.length / 2) 0
    { st with computed_offset := some median }

/-- `AlignmentState::add_sample` (lib.rs lines 127-152): returns the updated
state and the Rust function's boolean result. -/
def AlignmentState.add_sample (st : AlignmentState) (frame_ms path_start_ms : ℚ) :
    AlignmentState × Bool :=
  if st.computed_offset.isSome then (st, true)
  else
    let st :=
      if st.first_frame_ms.isNone then { st with first_frame_ms := some frame_ms } else st
    let elapsed := frame_ms - st.first_frame_ms.getD frame_ms
    if st.max_window_ms < elapsed ∧ st.samples ≠ [] then (st.compute_offset, true)
    else
      let st := { st with samples := st.samples ++ [path_start_ms - frame_ms] }
      if st.max_samples ≤ st.samples.length then (st.compute_offset, true)
      else (st, false)

/-- `AlignmentState::get_offset` (lib.rs lines 182-187): computes the offset
now if it is unset and at least one sample is buffered, then returns it
(or `0`). -/
def AlignmentState.get_offset (st : AlignmentState) (_path_start_ms : ℚ) :
    AlignmentState × ℚ :=
  let st := if st.computed_offset.isNone ∧ st.samples ≠ [] then st.compute_offset else st
  (st, st.computed_offset.getD 0)

/-- One decoded frame of the render loop's alignment handling
(lib.rs lines 671-674): `add_sample` (boolean result discarded) immediately
followed by `get_offset`. Returns the state afterwards and the offset that
the loop applies to this frame. -/
def renderLoopAlignStep (st : AlignmentState) (frame_ms path_start_ms : ℚ) :
    AlignmentState × ℚ :=
  let st1 := (st.add_sample frame_ms path_start_ms).1
  st1.get_offset path_start_ms

/-! ## Frame-time position oracle (`find_position_for_timestamp_hermite`,
lib.rs lines 836-897)

`PathPoint` (types.rs lines 12-20) holds `f64` position, timestamp and
velocity; all five fields are modelled exactly in `ℚ` (the oracle is
square-root free). The `&mut bool` out-parameter `clamped` becomes the
second component of the result. -/

/-- `PathPoint` (types.rs lines 12-20). -/
structure PathPoint where
  x : ℚ
  y : ℚ
  timestamp_ms : ℚ
  vx : ℚ
  vy : ℚ
  deriving Repr, DecidableEq

instance : Inhabited PathPoint := ⟨⟨0, 0, 0, 0, 0⟩⟩

/-- The in-segment Hermite evaluation of the oracle (lib.rs lines 855-886):
degenerate segment duration returns `p1`'s position, otherwise cubic Hermite
with tangents rescaled by the segment duration in seconds. -/
def hermite_segment_eval (p1 p2 : PathPoint) (timestampMs : ℚ) : ℚ × ℚ :=
  let durationMs := p2.timestamp_ms - p1.timestamp_ms
  if durationMs ≤ 0 then (p1.x, p1.y)
  else
    let t := (timestampMs - p1.timestamp_ms) / durationMs
    let durationS := durationMs / 1000
    let v1x := p1.vx * durationS
    let v1y := p1.vy * durationS
    let v2x := p2.vx * durationS
    let v2y := p2.vy * durationS
    let t2 := t * t
    let t3 := t2 * t
    let h00 := 2 * t3 - 3 * t2 + 1
    let h10 := t3 - 2 * t2 + t
    let h01 := -2 * t3 + 3 * t2
    let h11 := t3 - t2
    (h00 * p1.x + h10 * v1x + h01 * p2.x + h11 * v2x,
     h00 * p1.y + h10 * v1y + h01 * p2.y + h11 * v2y)

/-- `find_position_for_timestamp_hermite` (lib.rs lines 836-897). The result
is `(position?, clamped)`: `none` exactly on the empty path; a singleton path
returns its point clamped; otherwise the first window `[w0, w1]` of adjacent
points whose timestamps bracket the query is Hermite-evaluated, and a failed
window search clamps to the first or last point. -/
def find_position_for_timestamp_hermite (path : List PathPoint) (timestampMs : ℚ) :
    Option (ℚ × ℚ) × Bool :=
  match path with
  | [] => (none, false)
  | [p] => (some (p.x, p.y), true)
  | _ :: _ :: _ =>
    match (path.zip path.tail).findIdx?
        (fun w => decide (w.1.timestamp_ms ≤ timestampMs ∧ timestampMs ≤ w.2.timestamp_ms)) with
    | some i =>
      (some (hermite_segment_eval (path.getD i default) (path.getD (i + 1) default) timestampMs),
       false)
    | none =>
      if timestampMs < (path.headD default).timestamp_ms then
        (some ((path.headD default).x, (path.headD default).y), true)
      else
        (some ((path.getLastD default).x, (path.getLastD default).y), true)

/-! ## Progress reporting of `process_video_with_cursor` /
`render_video_with_overlay` (lib.rs lines 247-249, 328-330, 341-344, 739-744)

The values handed to the progress callback over one successful invocation:
`0.0` on entry, `0.1` after smoothing, then — only when the input stream
reports a positive frame count — `min (0.1 + 0.9·(processed/total)) 0.99`
after each encoded frame, and `1.0` at success. -/

/-- The encode-phase progress value for the given processed-frame count
(lib.rs lines 739-744): `0.1 + 0.9 * (processed / total)` capped at `0.99`. -/
def encode_progress_value (totalFrames : ℚ) (processedFrames : ℕ) : ℚ :=
  min (1 / 10 + (9 / 10) * ((processedFrames : ℚ) / totalFrames)) (99 / 100)

/-- The full sequence of values the progress callback receives across one
invocation of `process_video_with_cursor` that decodes `framesProcessed`
frames and then succeeds or fails in rendering. -/
def progress_callback_trace (totalFrames : ℚ) (framesProcessed : ℕ) (success : Bool) :
    List ℚ :=
  [0, 1 / 10]
    ++ (if 0 < totalFrames then
          (List.range framesProcessed).map (fun i => encode_progress_value totalFrames (i + 1))
        else [])
    ++ (if success then [1] else [])

/-! ## Sub-pixel compositor (`renderer.rs`)

Byte buffers are total functions `ℕ → ℕ` (each value a `u8`, i.e. `< 256`
whenever the buffer is well-formed) together with an explicit length;
`f32` coordinates are exact rationals. -/

/-- Rust `as u8` applied to a nonnegative-or-saturated float: truncation
toward zero with saturation into `[0, 255]`. -/
def f32_as_u8 (q : ℚ) : ℕ := min 255 ⌊q⌋.toNat

/-- `CursorSprite` (renderer.rs lines 4-8): raw RGBA8 bytes. -/
structure CursorSprite where
  data : List ℕ
  width : ℕ
  height : ℕ
  deriving Repr, DecidableEq

/-- The clamped texel byte index used by `get_pixel` inside
`sample_bilinear_fast` (renderer.rs lines 104-114): coordinates are clamped
into `[0, width-1] × [0, height-1]` and the RGBA stride is 4. -/
def texel_clamped_index (cursor : CursorSprite) (cx cy : ℤ) : ℕ :=
  let cxc := (min (max cx 0) ((cursor.width : ℤ) - 1)).toNat
  let cyc := (min (max cy 0) ((cursor.height : ℤ) - 1)).toNat
  (cyc * cursor.width + cxc) * 4

/-- `get_pixel` (renderer.rs lines 104-114): reads the four channel bytes at
the clamped texel index, as floats. -/
def get_pixel (cursor : CursorSprite) (cx cy : ℤ) : ℚ × ℚ × ℚ × ℚ :=
  let idx := texel_clamped_index cursor cx cy
  ((cursor.data.getD idx 0 : ℚ), (cursor.data.getD (idx + 1) 0 : ℚ),
   (cursor.data.getD (idx + 2) 0 : ℚ), (cursor.data.getD (idx + 3) 0 : ℚ))

/-- `sample_bilinear_fast` (renderer.rs lines 79-137): strict bounds check,
then bilinear interpolation of the four neighbouring texels, each channel
truncated back to a byte. -/
def sample_bilinear_fast (cursor : CursorSprite) (x y : ℚ) : Option (ℕ × ℕ × ℕ × ℕ) :=
  if x < -(1 / 2) ∨ y < -(1 / 2) ∨ (cursor.width : ℚ) - 1 / 2 ≤ x ∨
      (cursor.height : ℚ) - 1 / 2 ≤ y then
    none
  else
    let xFloor : ℤ := ⌊x⌋
    let yFloor : ℤ := ⌊y⌋
    let u := x - xFloor
    let v := y - yFloor
    let invU := 1 - u
    let invV := 1 - v
    let tl := get_pixel cursor xFloor yFloor
    let tr := get_pixel cursor (xFloor + 1) yFloor
    let bl := get_pixel cursor xFloor (yFloor + 1)
    let br := get_pixel cursor (xFloor + 1) (yFloor + 1)
    let interp := fun (cTl cTr cBl cBr : ℚ) =>
      f32_as_u8 ((cTl * invU + cTr * u) * invV + (cBl * invU + cBr * u) * v)
    some (interp tl.1 tr.1 bl.1 br.1, interp tl.2.1 tr.2.1 bl.2.1 br.2.1,
          interp tl.2.2.1 tr.2.2.1 bl.2.2.1 br.2.2.1,
          interp tl.2.2.2 tr.2.2.2 bl.2.2.2 br.2.2.2)

/-- `blend` (renderer.rs lines 67-70). -/
def blend (bg fg : ℕ) (alpha : ℚ) : ℕ :=
  f32_as_u8 ((bg : ℚ) * (1 - alpha) + (fg : ℚ) * alpha)

/-- The destination pixels `(dy, dx)` visited by `composite_cursor_subpixel`
(renderer.rs lines 32-45): the sprite bounding box with one pixel of bilinear
spill, clamped to the frame extents (height derived as
`frame.len() / (frame_width * 4)`). -/
def composite_draw_pairs (frameLen frameWidth : ℕ) (cursor : CursorSprite) (x y : ℚ) :
    List (ℤ × ℤ) :=
  let startX : ℤ := ⌊x⌋
  let startY : ℤ := ⌊y⌋
  let endX := startX + cursor.width + 1
  let endY := startY + cursor.height + 1
  let drawStartX := max startX 0
  let drawStartY := max startY 0
  let drawEndX := min endX (frameWidth : ℤ)
  let drawEndY := min endY ((frameLen / (frameWidth * 4) : ℕ) : ℤ)
  (List.range (drawEndY - drawStartY).toNat).flatMap fun (j : ℕ) =>
    (List.range (drawEndX - drawStartX).toNat).map fun (i : ℕ) =>
      (drawStartY + (j : ℤ), drawStartX + (i : ℤ))

/-- The loop body of `composite_cursor_subpixel` (renderer.rs lines 45-63)
for one destination pixel `(dy, dx)`. -/
def compositeStep (frameWidth : ℕ) (cursor : CursorSprite) (x y : ℚ)
    (fr : ℕ → ℕ) (dyx : ℤ × ℤ) : ℕ → ℕ :=
  match sample_bilinear_fast cursor ((dyx.2 : ℚ) - x) ((dyx.1 : ℚ) - y) with
  | none => fr
  | some (r, g, b, a) =>
    let alpha : ℚ := (a : ℚ) / 255
    if 0 < alpha then
      let idx := (dyx.1.toNat * frameWidth + dyx.2.toNat) * 4
      fun j =>
        if j = idx then blend (fr idx) r alpha
        else if j = idx + 1 then blend (fr (idx + 1)) g alpha
        else if j = idx + 2 then blend (fr (idx + 2)) b alpha
        else fr j
    else fr

/-- `composite_cursor_subpixel` (renderer.rs lines 24-65): for each visited
destination pixel, bilinearly sample the cursor at the mapped-back source
coordinate and alpha-over-composite the RGB bytes at
`idx = (dy * frame_width + dx) * 4`. -/
def composite_cursor_subpixel (frame : ℕ → ℕ) (frameLen frameWidth : ℕ)
    (cursor : CursorSprite) (x y : ℚ) : ℕ → ℕ :=
  (composite_draw_pairs frameLen frameWidth cursor x y).foldl
    (compositeStep frameWidth cursor x y) frame

/-! ## Per-frame overlay routine (`overlay_image_on_rgb_frame`,
lib.rs lines 899-942)

This is the overlay the render loop actually uses, writing RGB24 bytes at
stride `stride` into the decoded frame. The RGBA sprite is a pixel function
`(x_overlay, y_overlay) ↦ (r, g, b, a)`. -/

/-- An `image::RgbaImage` as used by `overlay_image_on_rgb_frame`. -/
structure RgbaImage where
  width : ℕ
  height : ℕ
  pixel : ℕ → ℕ → ℕ × ℕ × ℕ × ℕ

/-- The `(y_overlay, x_overlay)` iteration order of the overlay's two nested
loops (lib.rs lines 907-908). -/
def overlay_pairs (overlayW overlayH : ℕ) : List (ℕ × ℕ) :=
  (List.range overlayH).flatMap fun yo => (List.range overlayW).map fun xo => (yo, xo)

/-- The loop body of `overlay_image_on_rgb_frame` (lib.rs lines 909-938) for
one overlay pixel `(y_overlay, x_overlay)`. -/
def overlayStep (frameLen : ℕ) (frameW frameH : ℤ) (stride : ℕ) (overlay : RgbaImage)
    (xPos yPos : ℤ) (fr : ℕ → ℕ) (p : ℕ × ℕ) : ℕ → ℕ :=
  let xFrame := xPos + p.2
  let yFrame := yPos + p.1
  if 0 ≤ xFrame ∧ xFrame < frameW ∧ 0 ≤ yFrame ∧ yFrame < frameH then
    let px := overlay.pixel p.2 p.1
    if 0 < px.2.2.2 then
      let frameIdx := yFrame.toNat * stride + xFrame.toNat * 3
      if frameIdx + 2 < frameLen then
        if px.2.2.2 = 255 then
          fun j =>
            if j = frameIdx then px.1
            else if j = frameIdx + 1 then px.2.1
            else if j = frameIdx + 2 then px.2.2.1
            else fr j
        else
          let alphaF : ℚ := (px.2.2.2 : ℚ) / 255
          let invAlpha := 1 - alphaF
          fun j =>
            if j = frameIdx then f32_as_u8 ((px.1 : ℚ) * alphaF + (fr frameIdx : ℚ) * invAlpha)
            else if j = frameIdx + 1 then
              f32_as_u8 ((px.2.1 : ℚ) * alphaF + (fr (frameIdx + 1) : ℚ) * invAlpha)
            else if j = frameIdx + 2 then
              f32_as_u8 ((px.2.2.1 : ℚ) * alphaF + (fr (frameIdx + 2) : ℚ) * invAlpha)
            else fr j
      else fr
    else fr
  else fr

/-- `overlay_image_on_rgb_frame` (lib.rs lines 899-942): for every overlay
pixel, if the destination frame coordinate is in bounds, the sprite alpha is
positive and the byte index is in range, write the three RGB bytes (exact
copy at alpha 255, float alpha blend otherwise). -/
def overlay_image_on_rgb_frame (frame : ℕ → ℕ) (frameLen : ℕ) (frameW frameH : ℤ)
    (stride : ℕ) (overlay : RgbaImage) (xPos yPos : ℤ) : ℕ → ℕ :=
  (overlay_pairs overlay.width overlay.height).foldl
    (overlayStep frameLen frameW frameH stride overlay xPos yPos) frame

/-! ## The spline / arc-length / kinematics pipeline (`lib.rs`)

These functions use `f32::sqrt`, `f32::powf` and `f64::sqrt`, so they are
modelled over `ℝ` (with `Real.sqrt` and real exponentiation). Comparisons on
`ℝ` use classical decidability. -/

open scoped Classical

/-- `CPoint` (types.rs lines 3-7): `f32` position, `f64` timestamp, all
modelled in `ℝ`. -/
@[ext]
structure CPoint where
  x : ℝ
  y : ℝ
  timestamp_ms : ℝ

instance : Inhabited CPoint := ⟨⟨0, 0, 0⟩⟩

/-- `f32::EPSILON = 2⁻²³`. -/
noncomputable def F32_EPSILON : ℝ := 1 / 2 ^ 23

/-- `f64::EPSILON = 2⁻⁵²`. -/
noncomputable def F64_EPSILON : ℝ := 1 / 2 ^ 52

/-- `f64::MAX = (2 - 2⁻⁵²) · 2¹⁰²³`. -/
noncomputable def F64_MAX : ℝ := (2 - 1 / 2 ^ 52) * 2 ^ 1023

/-- `interpolate_points` (lib.rs lines 976-1002): a linear blend between two
points; when the parameter interval is below `f32::EPSILON` the weights
collapse to the endpoint selected by `t ≤ t_start`. -/
noncomputable def interpolate_points (tEnd tStart t : ℝ) (pStart pEnd : CPoint) : CPoint :=
  let w : ℝ × ℝ :=
    if |tEnd - tStart| < F32_EPSILON then
      if t ≤ tStart then (1, 0) else (0, 1)
    else
      ((tEnd - t) / (tEnd - tStart), (t - tStart) / (tEnd - tStart))
  { x := w.1 * pStart.x + w.2 * pEnd.x
    y := w.1 * pStart.y + w.2 * pEnd.y
    timestamp_ms := w.1 * pStart.timestamp_ms + w.2 * pEnd.timestamp_ms }

/-- `calculate_t_j` (lib.rs lines 1004-1008): the next Catmull-Rom knot,
`t_i + (‖P_j − P_i‖²)^(1/2·…)`, i.e. `t_i + (√(dx² + dy²))^α`. -/
noncomputable def calculate_t_j (tI : ℝ) (pI pJ : CPoint) (alpha : ℝ) : ℝ :=
  tI + (Real.sqrt ((pJ.x - pI.x) ^ 2 + (pJ.y - pI.y) ^ 2)) ^ alpha

/-- `linspace` (lib.rs lines 1010-1019). -/
noncomputable def linspace (start stop : ℝ) (numPoints : ℕ) : List ℝ :=
  if numPoints = 0 then []
  else if numPoints = 1 then [start]
  else
    (List.range numPoints).map fun (i : ℕ) =>
      start + (i : ℝ) * ((stop - start) / ((numPoints - 1 : ℕ) : ℝ))

/-- The Barry-Goldman pyramid evaluated at parameter `t` — the loop body of
`catmull_rom_spline` (lib.rs lines 964-971). -/
noncomputable def catmullPyramid (t0 t1 t2 t3 : ℝ) (p0 p1 p2 p3 : CPoint) (t : ℝ) : CPoint :=
  let a1 := interpolate_points t1 t0 t p0 p1
  let a2 := interpolate_points t2 t1 t p1 p2
  let a3 := interpolate_points t3 t2 t p2 p3
  let b1 := interpolate_points t2 t0 t a1 a2
  let b2 := interpolate_points t3 t1 t a2 a3
  interpolate_points t2 t1 t b1 b2

/-- `catmull_rom_spline` (lib.rs lines 948-974): knots from
`calculate_t_j`, parameters uniformly spaced on `[t₁, t₂]`, pyramid
evaluation at each parameter. -/
noncomputable def catmull_rom_spline (p0 p1 p2 p3 : CPoint) (numPoints : ℕ) (alpha : ℝ) :
    List CPoint :=
  let t0 : ℝ := 0
  let t1 := calculate_t_j t0 p0 p1 alpha
  let t2 := calculate_t_j t1 p1 p2 alpha
  let t3 := calculate_t_j t2 p2 p3 alpha
  (linspace t1 t2 numPoints).map (catmullPyramid t0 t1 t2 t3 p0 p1 p2 p3)

/-- The running-sum helper of `cumulative_lengths`. -/
noncomputable def cumulativeAux (prev : CPoint) (s : ℝ) : List CPoint → List ℝ
  | [] => []
  | p :: rest =>
    let s2 := s + Real.sqrt ((p.x - prev.x) ^ 2 + (p.y - prev.y) ^ 2)
    s2 :: cumulativeAux p s2 rest

/-- `cumulative_lengths` (lib.rs lines 1101-1116): cumulative Euclidean arc
lengths, starting at `0`. -/
noncomputable def cumulative_lengths : List CPoint → List ℝ
  | [] => []
  | p :: rest => 0 :: cumulativeAux p 0 rest

/-- The binary-search loop of `position_at_distance` (lib.rs lines 1126-1136):
narrows `[lo, hi]` until `lo + 1 ≥ hi`, keeping `cum[lo] ≤ s` when possible. -/
noncomputable def bsearchPair (cum : List ℝ) (s : ℝ) (lo hi : ℕ) : ℕ × ℕ :=
  if h : lo + 1 < hi then
    let mid := (lo + hi) / 2
    if cum.getD mid 0 ≤ s then bsearchPair cum s mid hi else bsearchPair cum s lo mid
  else (lo, hi)
termination_by hi - lo
decreasing_by
  · omega
  · omega

/-- `position_at_distance` (lib.rs lines 1118-1148): clamp the queried arc
length, binary-search the bracketing pair, linearly interpolate (degenerate
bracket returns the upper endpoint). -/
noncomputable def position_at_distance (points : List CPoint) (cum : List ℝ) (sQuery : ℝ) :
    ℝ × ℝ :=
  match points with
  | [] => (0, 0)
  | [p] => (p.x, p.y)
  | _ :: _ :: _ =>
    let sq := min (max sQuery 0) (cum.getLastD 0)
    let lh := bsearchPair cum sq 0 (cum.length - 1)
    let s0 := cum.getD lh.1 0
    let s1 := cum.getD lh.2 0
    let q0 := points.getD lh.1 default
    let q1 := points.getD lh.2 default
    if |s1 - s0| < F64_EPSILON then (q1.x, q1.y)
    else
      let t := (sq - s0) / (s1 - s0)
      (q0.x + t * (q1.x - q0.x), q0.y + t * (q1.y - q0.y))

/-! ## Kinematic target generation
(`generate_targets_with_click_constraints`, lib.rs lines 1152-1279) -/

/-- The nearest-spline-point projection loop (lib.rs lines 1178-1191):
linear scan tracking the running best squared distance, seeded with
`best_i = 0`, `best_d2 = f64::MAX`. -/
noncomputable def projIndex (splinePoints : List CPoint) (rp : CPoint) : ℕ :=
  (splinePoints.enum.foldl
    (fun best ia =>
      let d2 := (ia.2.x - rp.x) ^ 2 + (ia.2.y - rp.y) ^ 2
      if d2 < best.2 then (ia.1, d2) else best)
    (0, F64_MAX)).1

/-- The helper of the anchor monotonicity pass. -/
noncomputable def monotoneClampAux (prev : ℝ) : List ℝ → List ℝ
  | [] => []
  | a :: rest =>
    let a2 := if a < prev then prev else a
    a2 :: monotoneClampAux a2 rest

/-- The anchor monotonicity pass (lib.rs lines 1194-1199): each entry below
its (already clamped) predecessor is raised to it. -/
noncomputable def monotoneClamp : List ℝ → List ℝ
  | [] => []
  | a :: rest => a :: monotoneClampAux a rest

/-- The projected arc-length anchors `anchors_s` after the monotonicity pass
(lib.rs lines 1176-1199). -/
noncomputable def clickAnchorsS (rawPoints splinePoints : List CPoint) : List ℝ :=
  monotoneClamp
    (rawPoints.map fun rp => (cumulative_lengths splinePoints).getD (projIndex splinePoints rp) 0)

/-- The anchor timestamps `anchors_t` (lib.rs lines 1177, 1191). -/
noncomputable def clickAnchorsT (rawPoints : List CPoint) : List ℝ :=
  rawPoints.map (·.timestamp_ms)

/-- The clamped inter-anchor distance `ds` (lib.rs line 1212). -/
noncomputable def segDs (s0 s1 : ℝ) : ℝ := max (s1 - s0) 0

/-- The clamped inter-anchor duration `dt` in seconds (lib.rs line 1213). -/
noncomputable def segDt (t0 t1 : ℝ) : ℝ := max ((t1 - t0) / 1000) (1 / 1000000)

/-- The peak-velocity solve (lib.rs lines 1216-1226): quadratic solution
capped below `v_max`, with the `a·dt/2` fallback on a negative discriminant. -/
noncomputable def segVPeak (ds dt : ℝ) : ℝ :=
  let a := ACCELERATION_MAX_PX_PER_SEC2
  let disc := a * a * (dt * dt) - 4 * a * ds
  let v0 := if 0 ≤ disc then max ((1 / 2) * (a * dt - Real.sqrt disc)) 0 else a * dt * (1 / 2)
  min v0 VELOCITY_MAX_PX_PER_SEC

/-- The ideal-trapezoid total distance `s_total` (lib.rs lines 1228-1234). -/
noncomputable def segSTotal (ds dt : ℝ) : ℝ :=
  let vPeak := segVPeak ds dt
  let tAcc := vPeak / ACCELERATION_MAX_PX_PER_SEC2
  let tCruise := max (dt - tAcc - tAcc) 0
  let sAcc := (1 / 2) * ACCELERATION_MAX_PX_PER_SEC2 * tAcc * tAcc
  sAcc + vPeak * tCruise + sAcc

/-- The distance-matching scale factor (lib.rs lines 1236-1240). -/
noncomputable def segScale (ds dt : ℝ) : ℝ :=
  if 1 / 1000000000 < segSTotal ds dt then max (ds / segSTotal ds dt) 0 else 1

/-- Effective acceleration `a_eff` (lib.rs line 1241). -/
noncomputable def segAEff (ds dt : ℝ) : ℝ := ACCELERATION_MAX_PX_PER_SEC2 * segScale ds dt

/-- Effective peak velocity `v_eff` (lib.rs line 1242). -/
noncomputable def segVEff (ds dt : ℝ) : ℝ := segVPeak ds dt * segScale ds dt

/-- Effective acceleration time `t_acc_eff` (lib.rs line 1243). -/
noncomputable def segTAccEff (ds dt : ℝ) : ℝ :=
  if 1 / 1000000000 < segAEff ds dt then segVEff ds dt / segAEff ds dt else 0

/-- Effective cruise time `t_cruise_eff` (lib.rs line 1244). -/
noncomputable def segTCruiseEff (ds dt : ℝ) : ℝ := max (dt - 2 * segTAccEff ds dt) 0

/-- Acceleration-phase distance `s_acc_eff` (lib.rs line 1245). -/
noncomputable def segSAccEff (ds dt : ℝ) : ℝ :=
  (1 / 2) * segAEff ds dt * segTAccEff ds dt * segTAccEff ds dt

/-- The three-phase relative distance `s_rel` at elapsed time `t`
(lib.rs lines 1249-1259). -/
noncomputable def segSRel (ds dt t : ℝ) : ℝ :=
  if t ≤ segTAccEff ds dt then (1 / 2) * segAEff ds dt * t * t
  else if t ≤ segTAccEff ds dt + segTCruiseEff ds dt then
    segSAccEff ds dt + segVEff ds dt * (t - segTAccEff ds dt)
  else
    let td := t - (segTAccEff ds dt + segTCruiseEff ds dt)
    segSAccEff ds dt + segVEff ds dt * segTCruiseEff ds dt +
      (segVEff ds dt * td - (1 / 2) * segAEff ds dt * td * td)

/-- The number of iterations of the emit loop `while t < dt` with exact step
`dt_frame` (lib.rs lines 1247-1268): the `k`-th iteration runs iff
`k · dt_frame < dt`, so (for `dt_frame > 0`) the loop body executes
`⌈dt / dt_frame⌉` times. -/
noncomputable def segN (t0 t1 dtFrame : ℝ) : ℕ := ⌈segDt t0 t1 / dtFrame⌉₊

/-- The target run of one inter-anchor segment (lib.rs lines 1207-1276):
the frame-cadence emit loop followed by the exact final endpoint at the
ending anchor's timestamp. -/
noncomputable def segmentTargets (splinePoints : List CPoint) (cum : List ℝ) (dtFrame : ℝ)
    (s0 s1 t0 t1 : ℝ) : List CPoint :=
  let ds := segDs s0 s1
  let dt := segDt t0 t1
  ((List.range (segN t0 t1 dtFrame)).map fun (k : ℕ) =>
    let t := (k : ℝ) * dtFrame
    let sAbs := s0 + min (segSRel ds dt t) ds
    let xy := position_at_distance splinePoints cum sAbs
    ({ x := xy.1, y := xy.2, timestamp_ms := t0 + t * 1000 } : CPoint))
  ++ [let xy := position_at_distance splinePoints cum s1
      ({ x := xy.1, y := xy.2, timestamp_ms := t1 } : CPoint)]

/-- `generate_targets_with_click_constraints` (lib.rs lines 1152-1279). -/
noncomputable def generate_targets_with_click_constraints (rawPoints splinePoints : List CPoint)
    (_baseTsMs : ℝ) (frameRate : ℤ) : List CPoint :=
  if rawPoints.length < 2 ∨ splinePoints.length < 2 then splinePoints
  else
    let fps : ℝ := if 0 < frameRate then (frameRate : ℝ) else 60
    let dtFrame := 1 / fps
    let cum := cumulative_lengths splinePoints
    if cum.getLastD 0 ≤ 0 then splinePoints
    else
      (List.range (rawPoints.length - 1)).flatMap fun seg =>
        segmentTargets splinePoints cum dtFrame
          ((clickAnchorsS rawPoints splinePoints).getD seg 0)
          ((clickAnchorsS rawPoints splinePoints).getD (seg + 1) 0)
          ((clickAnchorsT rawPoints).getD seg 0)
          ((clickAnchorsT rawPoints).getD (seg + 1) 0)

/-! ## Spring follower and smoothing pipeline (`spring_follow_path`,
`smooth_cursor_path_with_params`, lib.rs lines 357-529, 1027-1095)

The pipeline's `PathPoint` output lives in the real-valued world, so it is
modelled as `PathPointR` (same fields as `PathPoint`, over `ℝ`). -/

/-- `VideoProcessingConfig` (types.rs lines 79-94). -/
structure VideoProcessingConfig where
  smoothing_alpha : ℝ
  responsiveness : ℝ
  smoothness : ℝ
  frame_rate : ℤ
  log_level : ℤ

/-- The real-valued `PathPoint` produced by the spring follower
(types.rs lines 12-20). -/
structure PathPointR where
  x : ℝ
  y : ℝ
  timestamp_ms : ℝ
  vx : ℝ
  vy : ℝ

/-- Spring integrator state `(pos_x, pos_y, vel_x, vel_y)`. -/
structure SpringState where
  posX : ℝ
  posY : ℝ
  velX : ℝ
  velY : ℝ

/-- One semi-implicit Euler substep towards a fixed target
(lib.rs lines 1069-1082). -/
noncomputable def springSubstep (k c m h tx ty : ℝ) (st : SpringState) : SpringState :=
  let ax := (k * (tx - st.posX) - c * st.velX) / m
  let ay := (k * (ty - st.posY) - c * st.velY) / m
  let velX := st.velX + ax * h
  let velY := st.velY + ay * h
  { posX := st.posX + velX * h, posY := st.posY + velY * h, velX := velX, velY := velY }

/-- Rust `f64::ceil(x) as i32`, then `.max` bookkeeping is done at the call
site; here just the exact ceiling as an integer. -/
noncomputable def f64CeilToInt (x : ℝ) : ℤ := ⌈x⌉

/-- The adaptive substep count of the spring loop (lib.rs lines 1059-1066). -/
noncomputable def springSubstepCount (dt maxDt omegaN : ℝ) : ℤ :=
  let baseSub := if maxDt < dt then f64CeilToInt (dt / maxDt) else 1
  let freqSub := f64CeilToInt (dt * omegaN * 8)
  max baseSub (max freqSub 1)

/-- The per-target update of `spring_follow_path` (lib.rs lines 1055-1092):
substep `substeps` times with step `h = dt / substeps`, then emit a
`PathPointR` at the target's timestamp. -/
noncomputable def springFollowStep (k c m maxDt omegaN : ℝ)
    (acc : SpringState × ℝ × List PathPointR) (target : CPoint) :
    SpringState × ℝ × List PathPointR :=
  let prevT := acc.2.1
  let dt := max ((target.timestamp_ms - prevT) / 1000) 0
  let substeps := springSubstepCount dt maxDt omegaN
  let h := dt / (substeps : ℝ)
  let st := (springSubstep k c m h target.x target.y)^[substeps.toNat] acc.1
  (st, target.timestamp_ms,
    acc.2.2 ++ [{ x := st.posX, y := st.posY, timestamp_ms := target.timestamp_ms,
                  vx := st.velX, vy := st.velY }])

/-- `spring_follow_path` (lib.rs lines 1027-1095). -/
noncomputable def spring_follow_path (points : List CPoint) (config : VideoProcessingConfig) :
    List PathPointR :=
  match points with
  | [] => []
  | p0 :: rest =>
    let fps : ℝ := if 0 < config.frame_rate then (config.frame_rate : ℝ) else 60
    let maxDt := 2 / fps
    let kcm := derive_spring_params config.responsiveness config.smoothness
    let omegaN := Real.sqrt (kcm.1 / kcm.2.2)
    let start : SpringState := { posX := p0.x, posY := p0.y, velX := 0, velY := 0 }
    (rest.foldl (springFollowStep kcm.1 kcm.2.1 kcm.2.2 maxDt omegaN)
      (start, p0.timestamp_ms,
        [{ x := p0.x, y := p0.y, timestamp_ms := p0.timestamp_ms, vx := 0, vy := 0 }])).2.2

/-- Rust `f64::round` (half away from zero). -/
noncomputable def rustRound (x : ℝ) : ℤ := if 0 ≤ x then ⌊x + 1 / 2⌋ else -⌊-x + 1 / 2⌋

/-- `calculate_frames_between_points` (lib.rs lines 513-529): per-segment
frame counts `max(round(Δt_s · fps), 1)`, with the `as usize` cast saturating
negatives to `0`. -/
noncomputable def calculate_frames_between_points (cursorPoints : List CPoint)
    (frameRate : ℤ) : List ℕ :=
  (List.range (cursorPoints.length - 1)).map fun i =>
    let timeDeltaMs := (cursorPoints.getD (i + 1) default).timestamp_ms -
      (cursorPoints.getD i default).timestamp_ms
    max (rustRound (timeDeltaMs / 1000 * (frameRate : ℝ))).toNat 1

/-- The chained spline of `smooth_cursor_path_with_params`
(lib.rs lines 372-423): duplicate the endpoints, sample every quadruple,
skip the duplicated junction point of every segment after the first. -/
noncomputable def chainedSplinePoints (cursorPoints : List CPoint) (frameCounts : List ℕ)
    (alpha : ℝ) : List CPoint :=
  let ext := [cursorPoints.headD default] ++ cursorPoints ++ [cursorPoints.getLastD default]
  (List.range (cursorPoints.length - 1)).flatMap fun seg =>
    let numPoints := frameCounts.getD seg 0
    if numPoints = 0 then []
    else
      let segmentPoints := catmull_rom_spline (ext.getD seg default) (ext.getD (seg + 1) default)
        (ext.getD (seg + 2) default) (ext.getD (seg + 3) default) numPoints alpha
      if 0 < seg then segmentPoints.drop 1 else segmentPoints

/-- `smooth_cursor_path_with_params` (lib.rs lines 357-511): fails when fewer
than 4 cursor points are supplied (or on a frame-count length mismatch),
otherwise runs spline chaining, kinematic target generation and the spring
follower. -/
noncomputable def smooth_cursor_path_with_params (cursorPoints : List CPoint)
    (config : VideoProcessingConfig) (targetFps : ℤ) (_desiredTotalMs : ℝ) :
    Except String (List PathPointR) :=
  if cursorPoints.length < 4 then
    .error "Need at least 4 cursor points for smoothing"
  else
    let frameCounts := calculate_frames_between_points cursorPoints targetFps
    if frameCounts.length ≠ cursorPoints.length - 1 then .error "Frame count mismatch"
    else
      let allSplinePoints := chainedSplinePoints cursorPoints frameCounts config.smoothing_alpha
      let baseTs := (cursorPoints.headD default).timestamp_ms
      let targets := generate_targets_with_click_constraints cursorPoints allSplinePoints
        baseTs targetFps
      .ok (spring_follow_path targets config)

/-! ## FFI entry point (`process_video_with_cursor`, lib.rs lines 197-351)

The I/O environment of one call — pointer nullness, path UTF-8 validity, the
video-probe outcome and the renderer outcome — is summarized in `HostEnv`;
the numeric control flow of the entry point is modelled exactly. -/

/-- The host-side circumstances of one `process_video_with_cursor` call. -/
structure HostEnv where
  inputPathNull : Bool
  outputPathNull : Bool
  cursorPathNull : Bool
  rawPointsNull : Bool
  configNull : Bool
  inputPathUtf8 : Bool
  outputPathUtf8 : Bool
  cursorPathUtf8 : Bool
  /-- `some (fps_num, fps_den, duration_ms)` when inspecting the input
  succeeds, `none` when it fails and the config/cursor fallback is used. -/
  videoProbe : Option (ℤ × ℤ × ℝ)
  /-- whether `render_video_with_overlay` succeeds. -/
  renderOk : Bool

/-- `process_video_with_cursor` (lib.rs lines 197-351): `-1` on a null
pointer, `-2` on invalid UTF-8, `-3` when smoothing fails, `-4` when
rendering fails, `0` on success. -/
noncomputable def process_video_with_cursor (env : HostEnv) (cursorPoints : List CPoint)
    (cfg : VideoProcessingConfig) : ℤ :=
  if env.inputPathNull ∨ env.outputPathNull ∨ env.cursorPathNull ∨ env.rawPointsNull ∨
      env.configNull then -1
  else if ¬env.inputPathUtf8 then -2
  else if ¬env.outputPathUtf8 then -2
  else if ¬env.cursorPathUtf8 then -2
  else
    let cursorSpanMs := max ((cursorPoints.getLastD default).timestamp_ms -
      (cursorPoints.headD default).timestamp_ms) 0
    let info : ℤ × ℤ × ℝ := match env.videoProbe with
      | some t => t
      | none => (cfg.frame_rate, 1, cursorSpanMs)
    let fpsDen : ℤ := info.2.1
    let targetFps : ℤ :=
      if fpsDen ≠ 0 then rustRound ((info.1 : ℝ) / (fpsDen : ℝ)) else cfg.frame_rate
    match smooth_cursor_path_with_params cursorPoints cfg targetFps info.2.2 with
    | .error _ => -3
    | .ok _ => if env.renderOk then 0 else -4

/-! ## Claim C1 — responsiveness → settling time

The source (lib.rs lines 69-75) computes
`MIN + (1-r)·(MIN - MAX)` and clamps it into `[MAX, MIN] = [0.06, 0.40]`.
Since `MIN - MAX > 0` and `1 - r ≥ 0` for clamped `r`, the pre-clamp value is
always `≥ 0.40`, so the clamp freezes the settling time at `0.40 s` for every
responsiveness — the mapping is constant, not monotone decreasing to
`0.06 s` (the bug the repository's own test
`responsiveness_affects_settling_time` documents). -/

/-- The settling time derived by `derive_spring_params` equals `0.40 s`
(`= 2/5`) for every responsiveness value: it never reaches `0.06 s` and is
not monotone decreasing. -/
theorem derive_spring_params_settling_time_constant :
    ∀ r : ℝ, settling_time_of r = 2 / 5 := by
  intro r
  have hr1 : rustClamp r 0 1 ≤ 1 := min_le_right _ _
  have h2 : (0 : ℝ) ≤ 1 - rustClamp r 0 1 := by linarith
  have h3 : (0 : ℝ) ≤ (1 - rustClamp r 0 1) *
      (RESPONSIVENESS_MIN_SETTLING_SEC - RESPONSIVENESS_MAX_SETTLING_SEC) := by
    apply mul_nonneg h2
    norm_num [RESPONSIVENESS_MIN_SETTLING_SEC, RESPONSIVENESS_MAX_SETTLING_SEC]
  show rustClamp _ _ _ = _
  rw [rustClamp, max_eq_left, min_eq_right]
  · norm_num [RESPONSIVENESS_MIN_SETTLING_SEC]
  · unfold RESPONSIVENESS_MIN_SETTLING_SEC at h3 ⊢
    linarith
  · unfold RESPONSIVENESS_MIN_SETTLING_SEC RESPONSIVENESS_MAX_SETTLING_SEC at h3 ⊢
    linarith

/-! ## Claim C2 — alignment transition discipline

`AlignmentState` in isolation transitions to Computed at 10 samples or a
window above 500 ms — but the render loop (lib.rs lines 671-674) calls
`get_offset` immediately after every `add_sample`, and `get_offset` computes
the offset from whatever is buffered. So after the very first decoded frame
the offset is frozen to that single frame's offset sample (`path_start −
frame₀`): the Collecting state never reaches 10 samples, and later samples
are discarded. -/

/-- After the render loop processes its first decoded frame (at 0 ms with
path start 1000 ms) the offset is already Computed — `some 1000`, the median
of one buffered sample — and processing a second frame (16 ms, whose offset
sample would be 984) neither buffers a sample nor changes the applied offset,
although the claimed discipline would still be Collecting (1 sample < 10,
elapsed 16 ms ≤ 500 ms). -/
theorem alignment_loop_offset_frozen_after_first_frame :
    (renderLoopAlignStep AlignmentState.new 0 1000).1.computed_offset = some 1000
    ∧ (renderLoopAlignStep AlignmentState.new 0 1000).1.samples.length = 1
    ∧ (renderLoopAlignStep (renderLoopAlignStep AlignmentState.new 0 1000).1 16 1000).2 = 1000
    ∧ (renderLoopAlignStep
        (renderLoopAlignStep AlignmentState.new 0 1000).1 16 1000).1.samples.length = 1 := by
  norm_num [renderLoopAlignStep, AlignmentState.add_sample, AlignmentState.get_offset,
    AlignmentState.compute_offset, AlignmentState.new, sortSamples, insertSorted,
    ALIGNMENT_SAMPLE_COUNT, ALIGNMENT_MAX_WINDOW_MS]

/-! ## Claim C6 — progress milestones

The encode-phase callback value (lib.rs lines 739-744) is
`min (0.1 + 0.9 · processed/total) 0.99`, not `0.1 + 0.85 · processed/total`
as claimed. The monotone-in-[0,1] part of the claim does hold. -/

/-- With 2 estimated frames, the callback value after the first encoded frame
is `0.55 = 0.1 + 0.9·(1/2)`, which differs from the claimed
`0.1 + 0.85·(1/2) = 0.525`. -/
theorem progress_values_differ_from_claimed_formula :
    progress_callback_trace 2 2 true = [0, 1 / 10, 11 / 20, 99 / 100, 1]
    ∧ ((11 : ℚ) / 20 ≠ 1 / 10 + (85 / 100) * ((1 : ℚ) / 2)) := by
  constructor
  · norm_num [progress_callback_trace, encode_progress_value, List.range_succ]
  · norm_num

/-- Lower and upper bounds on the encode-phase progress value. -/
theorem encode_progress_value_bounds (N : ℚ) (hN : 0 < N) (k : ℕ) :
    1 / 10 ≤ encode_progress_value N k ∧ encode_progress_value N k ≤ 99 / 100 := by
  constructor
  · apply le_min
    · have : (0 : ℚ) ≤ (9 / 10) * ((k : ℚ) / N) := by positivity
      linarith
    · norm_num
  · exact min_le_right _ _

/-- Monotonicity of the encode-phase progress value in the frame count. -/
theorem encode_progress_value_mono (N : ℚ) (hN : 0 < N) {a b : ℕ} (hab : a ≤ b) :
    encode_progress_value N a ≤ encode_progress_value N b := by
  apply min_le_min _ le_rfl
  have h : (a : ℚ) / N ≤ (b : ℚ) / N := by
    have hc : (a : ℚ) ≤ (b : ℚ) := Nat.cast_le.mpr hab
    exact (div_le_div_iff_of_pos_right hN).mpr hc
  linarith

/-- The progress callback receives monotone non-decreasing values in `[0,1]`:
`0.0` on entry, `0.1` after smoothing, `min (0.1 + 0.9·(k/total)) 0.99` after
the `k`-th encoded frame (only when the estimated total is positive), and
`1.0` at success. -/
theorem progress_trace_monotone_bounded (N : ℚ) (n : ℕ) (s : Bool) :
    List.Chain' (· ≤ ·) (progress_callback_trace N n s)
    ∧ ∀ v ∈ progress_callback_trace N n s, 0 ≤ v ∧ v ≤ 1 := by
  have hM : ∀ v ∈ (if 0 < N then
      (List.range n).map (fun i => encode_progress_value N (i + 1)) else []),
      1 / 10 ≤ v ∧ v ≤ 99 / 100 := by
    intro v hv
    by_cases hN : 0 < N
    · rw [if_pos hN] at hv
      obtain ⟨i, _, rfl⟩ := List.mem_map.mp hv
      exact encode_progress_value_bounds N hN (i + 1)
    · rw [if_neg hN] at hv
      simp at hv
  have hMpair : (if 0 < N then
      (List.range n).map (fun i => encode_progress_value N (i + 1)) else []).Pairwise
      (· ≤ ·) := by
    by_cases hN : 0 < N
    · rw [if_pos hN, List.pairwise_map]
      exact (List.pairwise_lt_range n).imp fun hij =>
        encode_progress_value_mono N hN (by omega)
    · rw [if_neg hN]
      exact List.Pairwise.nil
  have hS : ∀ v ∈ (if s then ([1] : List ℚ) else []), v = 1 := by
    intro v hv
    cases s <;> simp_all
  constructor
  · rw [List.chain'_iff_pairwise]
    unfold progress_callback_trace
    rw [List.append_assoc, List.pairwise_append]
    refine ⟨by norm_num, ?_, ?_⟩
    · rw [List.pairwise_append]
      refine ⟨hMpair, ?_, ?_⟩
      · cases s <;> simp
      · intro a ha b hb
        have := (hM a ha).2
        have := hS b hb
        linarith
    · intro a ha b hb
      have ha2 : a ≤ 1 / 10 := by
        simp only [List.mem_cons, List.mem_singleton, List.not_mem_nil, or_false] at ha
        rcases ha with rfl | rfl <;> norm_num
      rcases List.mem_append.mp hb with h | h
      · have := (hM b h).1
        linarith
      · have := hS b h
        linarith
  · intro v hv
    unfold progress_callback_trace at hv
    rw [List.append_assoc, List.mem_append] at hv
    rcases hv with h | h
    · simp only [List.mem_cons, List.mem_singleton, List.not_mem_nil, or_false] at h
      rcases h with rfl | rfl <;> norm_num
    · rcases List.mem_append.mp h with h | h
      · have := hM v h
        constructor <;> linarith [this.1, this.2]
      · have := hS v h
        norm_num [this]

/-! ## Claim C7 — fewer than 4 raw samples returns −3 -/

/-- For every call with non-null pointers and valid UTF-8 paths but fewer
than 4 raw cursor samples, the smoothing stage fails and
`process_video_with_cursor` returns `-3`, whatever the probe and render
outcomes are. -/
theorem process_video_insufficient_samples_returns_neg3
    (env : HostEnv) (pts : List CPoint) (cfg : VideoProcessingConfig)
    (hnull : env.inputPathNull = false ∧ env.outputPathNull = false ∧
      env.cursorPathNull = false ∧ env.rawPointsNull = false ∧ env.configNull = false)
    (hutf : env.inputPathUtf8 = true ∧ env.outputPathUtf8 = true ∧ env.cursorPathUtf8 = true)
    (hlen : pts.length < 4) :
    process_video_with_cursor env pts cfg = -3
    ∧ ∀ fps dur, ∃ e, smooth_cursor_path_with_params pts cfg fps dur = .error e := by
  obtain ⟨h1, h2, h3, h4, h5⟩ := hnull
  obtain ⟨h6, h7, h8⟩ := hutf
  have hsm : ∀ fps dur, ∃ e, smooth_cursor_path_with_params pts cfg fps dur = .error e := by
    intro fps dur
    exact ⟨_, by rw [smooth_cursor_path_with_params, if_pos hlen]⟩
  refine ⟨?_, hsm⟩
  rw [process_video_with_cursor]
  rw [if_neg (by simp [h1, h2, h3, h4, h5])]
  rw [if_neg (by simp [h6]), if_neg (by simp [h7]), if_neg (by simp [h8])]
  obtain ⟨e, he⟩ := hsm (if (match env.videoProbe with
    | some t => t
    | none => (cfg.frame_rate, 1,
        max ((pts.getLastD default).timestamp_ms - (pts.headD default).timestamp_ms) 0)).2.1 ≠ 0
    then rustRound (((match env.videoProbe with
      | some t => t
      | none => (cfg.frame_rate, 1,
          max ((pts.getLastD default).timestamp_ms - (pts.headD default).timestamp_ms) 0)).1 : ℝ)
      / ((match env.videoProbe with
      | some t => t
      | none => (cfg.frame_rate, 1,
          max ((pts.getLastD default).timestamp_ms - (pts.headD default).timestamp_ms) 0)).2.1 : ℝ))
    else cfg.frame_rate)
    (match env.videoProbe with
    | some t => t
    | none => (cfg.frame_rate, 1,
        max ((pts.getLastD default).timestamp_ms - (pts.headD default).timestamp_ms) 0)).2.2
  simp only [he]

/-- Concrete run of claim C7's theorem: three raw samples, a successful video
probe and a renderer that would succeed still yield `-3`. -/
theorem process_video_insufficient_samples_returns_neg3_witness :
    process_video_with_cursor
      { inputPathNull := false, outputPathNull := false, cursorPathNull := false,
        rawPointsNull := false, configNull := false, inputPathUtf8 := true,
        outputPathUtf8 := true, cursorPathUtf8 := true,
        videoProbe := some (60, 1, 1000), renderOk := true }
      [⟨0, 0, 0⟩, ⟨1, 1, 10⟩, ⟨2, 2, 20⟩]
      { smoothing_alpha := 1 / 2, responsiveness := 1 / 2, smoothness := 7 / 10,
        frame_rate := 60, log_level := 3 } = -3 :=
  (process_video_insufficient_samples_returns_neg3 _ _ _
    ⟨rfl, rfl, rfl, rfl, rfl⟩ ⟨rfl, rfl, rfl⟩ (by simp)).1

/-! ## Claim C3 — oracle clamping and totality -/

/-- In a timestamp-sorted path every element's timestamp is at least the
head's. -/
theorem ts_head_le_of_sorted (path : List PathPoint)
    (hs : path.Pairwise (fun a b => a.timestamp_ms ≤ b.timestamp_ms)) :
    ∀ a ∈ path, (path.headD default).timestamp_ms ≤ a.timestamp_ms := by
  cases path with
  | nil => intro a ha; simp at ha
  | cons h rest =>
    intro a ha
    rcases List.mem_cons.mp ha with rfl | ha
    · simp
    · exact (List.pairwise_cons.mp hs).1 a ha

/-- In a timestamp-sorted path every element's timestamp is at most the
last's. -/
theorem ts_le_getLast_of_sorted (path : List PathPoint)
    (hs : path.Pairwise (fun a b => a.timestamp_ms ≤ b.timestamp_ms)) :
    ∀ a ∈ path, a.timestamp_ms ≤ (path.getLastD default).timestamp_ms := by
  induction path with
  | nil => intro a ha; simp at ha
  | cons h rest ih =>
    intro a ha
    cases rest with
    | nil =>
      rcases List.mem_cons.mp ha with rfl | ha
      · simp
      · simp at ha
    | cons h2 rest2 =>
      have hlast : (h2 :: rest2).getLastD default ∈ h2 :: rest2 := by
        rw [List.getLastD_eq_getLast?, List.getLast?_eq_getLast _ (by simp)]
        exact List.getLast_mem _
      rcases List.mem_cons.mp ha with rfl | ha
      · calc a.timestamp_ms ≤ ((h2 :: rest2).getLastD default).timestamp_ms :=
              (List.pairwise_cons.mp hs).1 _ hlast
          _ = ((a :: h2 :: rest2).getLastD default).timestamp_ms := by simp
      · have := ih (List.pairwise_cons.mp hs).2 a ha
        simpa using this

/-- A window predicate that is false on every zipped pair makes the window
search fail. -/
theorem findIdx_eq_none_of_all_false {α : Type} (p : α → Bool) (l : List α)
    (h : ∀ x ∈ l, p x = false) : l.findIdx? p = none := by
  rw [List.findIdx?_eq_none_iff]
  intro x hx
  simpa using h x hx

/-- Claim C3: the oracle returns no position exactly on the empty path (in
the exact-arithmetic model it is total on every non-empty path, which is the
no-NaN guarantee: its one division is guarded by `duration_ms > 0`); a
singleton path returns its point with `clamped = true`; and on a
timestamp-sorted path every query outside `[t_first, t_last]` returns the
nearest endpoint's position with `clamped = true`. -/
theorem find_position_for_timestamp_hermite_spec (path : List PathPoint) (ts : ℚ) :
    ((find_position_for_timestamp_hermite path ts).1 = none ↔ path = [])
    ∧ (∀ p, path = [p] → find_position_for_timestamp_hermite path ts = (some (p.x, p.y), true))
    ∧ (path.Pairwise (fun a b => a.timestamp_ms ≤ b.timestamp_ms) → path ≠ [] →
        ts < (path.headD default).timestamp_ms →
        find_position_for_timestamp_hermite path ts
          = (some ((path.headD default).x, (path.headD default).y), true))
    ∧ (path.Pairwise (fun a b => a.timestamp_ms ≤ b.timestamp_ms) → path ≠ [] →
        (path.getLastD default).timestamp_ms < ts →
        find_position_for_timestamp_hermite path ts
          = (some ((path.getLastD default).x, (path.getLastD default).y), true)) := by
  refine ⟨?_, ?_, ?_, ?_⟩
  · match path with
    | [] => simp [find_position_for_timestamp_hermite]
    | [p] => simp [find_position_for_timestamp_hermite]
    | p :: q :: rest =>
      rw [find_position_for_timestamp_hermite]
      constructor
      · intro h
        rcases hidx : ((p :: q :: rest).zip (p :: q :: rest).tail).findIdx?
            (fun w => decide (w.1.timestamp_ms ≤ ts ∧ ts ≤ w.2.timestamp_ms)) with _ | i
        · rw [hidx] at h
          by_cases hc : ts < p.timestamp_ms <;> simp [hc] at h
        · rw [hidx] at h
          simp at h
      · intro h
        simp at h
  · intro p hp
    subst hp
    rfl
  · intro hs hne hlt
    match path, hne with
    | [p], _ => rfl
    | p :: q :: rest, _ =>
      rw [find_position_for_timestamp_hermite]
      have hnone : ((p :: q :: rest).zip (p :: q :: rest).tail).findIdx?
          (fun w => decide (w.1.timestamp_ms ≤ ts ∧ ts ≤ w.2.timestamp_ms)) = none := by
        apply findIdx_eq_none_of_all_false
        intro w hw
        have hw1 : w.1 ∈ p :: q :: rest := (List.of_mem_zip hw).1
        have := ts_head_le_of_sorted _ hs w.1 hw1
        have : ¬ (w.1.timestamp_ms ≤ ts ∧ ts ≤ w.2.timestamp_ms) := by
          intro hc
          have := hc.1
          linarith
        simpa using this
      rw [hnone]
      simp only [if_pos hlt]
  · intro hs hne hlt
    match path, hne with
    | [p], _ =>
      simp [find_position_for_timestamp_hermite]
    | p :: q :: rest, _ =>
      rw [find_position_for_timestamp_hermite]
      have hnone : ((p :: q :: rest).zip (p :: q :: rest).tail).findIdx?
          (fun w => decide (w.1.timestamp_ms ≤ ts ∧ ts ≤ w.2.timestamp_ms)) = none := by
        apply findIdx_eq_none_of_all_false
        intro w hw
        have hw2 : w.2 ∈ (p :: q :: rest).tail := (List.of_mem_zip hw).2
        have hw2b : w.2 ∈ p :: q :: rest := by
          simp only [List.tail_cons] at hw2
          exact List.mem_cons_of_mem _ hw2
        have := ts_le_getLast_of_sorted _ hs w.2 hw2b
        have : ¬ (w.1.timestamp_ms ≤ ts ∧ ts ≤ w.2.timestamp_ms) := by
          intro hc
          have := hc.2
          linarith
        simpa using this
      rw [hnone]
      have hheadle : ((p :: q :: rest).headD default).timestamp_ms ≤
          ((p :: q :: rest).getLastD default).timestamp_ms := by
        apply ts_le_getLast_of_sorted _ hs
        simp
      rw [if_neg (by push_neg; linarith)]

/-- Concrete run of claim C3's theorem: a query 150 ms past the end of a
two-point path returns the last position, clamped. -/
theorem find_position_for_timestamp_hermite_spec_witness :
    find_position_for_timestamp_hermite [⟨0, 0, 0, 0, 0⟩, ⟨5, 6, 100, 0, 0⟩] 250
      = (some (5, 6), true) := by
  have h := (find_position_for_timestamp_hermite_spec
    [⟨0, 0, 0, 0, 0⟩, ⟨5, 6, 100, 0, 0⟩] 250).2.2.2
    (by norm_num [List.pairwise_cons]) (by simp) (by norm_num)
  simpa using h

/-! ## Claims C9/C10 — compositor and overlay write discipline -/

/-- A byte position changed by a fold of per-item frame updates was changed
by one of the items. -/
theorem foldl_apply_ne {α β : Type} (step : (ℕ → β) → α → (ℕ → β)) (P : α → ℕ → Prop)
    (hstep : ∀ fr p j, step fr p j ≠ fr j → P p j) :
    ∀ (l : List α) (fr : ℕ → β) (j : ℕ), (l.foldl step fr) j ≠ fr j → ∃ p ∈ l, P p j := by
  intro l
  induction l with
  | nil => intro fr j h; simp at h
  | cons a l ih =>
    intro fr j h
    rw [List.foldl_cons] at h
    by_cases h2 : (l.foldl step (step fr a)) j = (step fr a) j
    · rw [h2] at h
      exact ⟨a, by simp, hstep fr a j h⟩
    · obtain ⟨p, hp, hP⟩ := ih (step fr a) j h2
      exact ⟨p, by simp [hp], hP⟩

/-- Membership characterization for the compositor's loop-pair list. -/
theorem mem_composite_draw_pairs {frameLen frameWidth : ℕ} {cursor : CursorSprite} {x y : ℚ}
    {p : ℤ × ℤ} (hp : p ∈ composite_draw_pairs frameLen frameWidth cursor x y) :
    ∃ jj ii : ℕ,
      (jj : ℤ) < min ((⌊y⌋ : ℤ) + cursor.height + 1) ((frameLen / (frameWidth * 4) : ℕ) : ℤ)
        - max (⌊y⌋ : ℤ) 0
      ∧ (ii : ℤ) < min ((⌊x⌋ : ℤ) + cursor.width + 1) (frameWidth : ℤ) - max (⌊x⌋ : ℤ) 0
      ∧ p = (max (⌊y⌋ : ℤ) 0 + jj, max (⌊x⌋ : ℤ) 0 + ii) := by
  rw [composite_draw_pairs] at hp
  obtain ⟨a, ha, hpa⟩ := List.mem_flatMap.mp hp
  obtain ⟨b, hb, rfl⟩ := List.mem_map.mp hpa
  rw [List.mem_range] at ha hb
  exact ⟨a, b, by omega, by omega, rfl⟩

/-- Membership in the overlay's loop-pair list gives the loop bounds. -/
theorem mem_overlay_pairs {w h : ℕ} {p : ℕ × ℕ} (hp : p ∈ overlay_pairs w h) :
    p.1 < h ∧ p.2 < w := by
  simp only [overlay_pairs, List.mem_flatMap, List.mem_map, List.mem_range] at hp
  obtain ⟨yo, hyo, xo, hxo, rfl⟩ := hp
  exact ⟨hyo, hxo⟩

/-- Claim C10: `overlay_image_on_rgb_frame` modifies only the R, G, B bytes
of frame pixels whose coordinates are inside the frame and whose byte index
is in range, and only where the sprite alpha is nonzero; every other byte of
the frame buffer is unchanged. -/
theorem overlay_image_modifies_only_inbounds_rgb (frame : ℕ → ℕ) (frameLen : ℕ)
    (frameW frameH : ℤ) (stride : ℕ) (overlay : RgbaImage) (xPos yPos : ℤ) (j : ℕ)
    (hchanged :
      overlay_image_on_rgb_frame frame frameLen frameW frameH stride overlay xPos yPos j
        ≠ frame j) :
    ∃ yo xo : ℕ, yo < overlay.height ∧ xo < overlay.width
      ∧ 0 ≤ xPos + xo ∧ xPos + xo < frameW ∧ 0 ≤ yPos + yo ∧ yPos + yo < frameH
      ∧ (overlay.pixel xo yo).2.2.2 ≠ 0
      ∧ (yPos + yo).toNat * stride + (xPos + xo).toNat * 3 + 2 < frameLen
      ∧ (j = (yPos + yo).toNat * stride + (xPos + xo).toNat * 3
         ∨ j = (yPos + yo).toNat * stride + (xPos + xo).toNat * 3 + 1
         ∨ j = (yPos + yo).toNat * stride + (xPos + xo).toNat * 3 + 2) := by
  have hstep : ∀ (fr : ℕ → ℕ) (p : ℕ × ℕ) (j : ℕ),
      overlayStep frameLen frameW frameH stride overlay xPos yPos fr p j ≠ fr j →
      (0 ≤ xPos + p.2 ∧ xPos + p.2 < frameW ∧ 0 ≤ yPos + p.1 ∧ yPos + p.1 < frameH
        ∧ (overlay.pixel p.2 p.1).2.2.2 ≠ 0
        ∧ (yPos + p.1).toNat * stride + (xPos + p.2).toNat * 3 + 2 < frameLen
        ∧ (j = (yPos + p.1).toNat * stride + (xPos + p.2).toNat * 3
           ∨ j = (yPos + p.1).toNat * stride + (xPos + p.2).toNat * 3 + 1
           ∨ j = (yPos + p.1).toNat * stride + (xPos + p.2).toNat * 3 + 2)) := by
    intro fr p j h
    rw [overlayStep] at h
    dsimp only at h
    by_cases hg1 : 0 ≤ xPos + p.2 ∧ xPos + p.2 < frameW ∧ 0 ≤ yPos + p.1 ∧ yPos + p.1 < frameH
    · rw [if_pos hg1] at h
      by_cases hg2 : 0 < (overlay.pixel p.2 p.1).2.2.2
      · rw [if_pos hg2] at h
        by_cases hg3 : (yPos + p.1).toNat * stride + (xPos + p.2).toNat * 3 + 2 < frameLen
        · rw [if_pos hg3] at h
          refine ⟨hg1.1, hg1.2.1, hg1.2.2.1, hg1.2.2.2, by omega, hg3, ?_⟩
          by_cases hj1 : j = (yPos + p.1).toNat * stride + (xPos + p.2).toNat * 3
          · exact Or.inl hj1
          by_cases hj2 : j = (yPos + p.1).toNat * stride + (xPos + p.2).toNat * 3 + 1
          · exact Or.inr (Or.inl hj2)
          by_cases hj3 : j = (yPos + p.1).toNat * stride + (xPos + p.2).toNat * 3 + 2
          · exact Or.inr (Or.inr hj3)
          exfalso
          by_cases hg4 : (overlay.pixel p.2 p.1).2.2.2 = 255 <;>
            simp only [if_pos, if_neg, hg4, hj1, hj2, hj3, if_true, if_false] at h <;>
            exact h rfl
        · rw [if_neg hg3] at h
          exact absurd rfl h
      · rw [if_neg hg2] at h
        exact absurd rfl h
    · rw [if_neg hg1] at h
      exact absurd rfl h
  rw [overlay_image_on_rgb_frame] at hchanged
  obtain ⟨p, hpmem, hP⟩ := foldl_apply_ne _ _ hstep _ frame j hchanged
  obtain ⟨hb1, hb2⟩ := mem_overlay_pairs hpmem
  exact ⟨p.1, p.2, hb1, hb2, hP.1, hP.2.1, hP.2.2.1, hP.2.2.2.1, hP.2.2.2.2.1,
    hP.2.2.2.2.2.1, hP.2.2.2.2.2.2⟩

/-- Concrete run of claim C10's theorem: a 1×1 opaque sprite at the origin of
a 2×2 RGB frame changes byte 0, and the theorem locates the changed byte in
the in-bounds RGB region. -/
theorem overlay_image_modifies_only_inbounds_rgb_witness :
    ∃ yo xo : ℕ, yo < (1 : ℕ) ∧ xo < (1 : ℕ)
      ∧ (0 : ℤ) ≤ 0 + xo ∧ (0 : ℤ) + xo < 2 ∧ (0 : ℤ) ≤ 0 + yo ∧ (0 : ℤ) + yo < 2
      ∧ ((fun _ _ => ((9, 8, 7, 255) : ℕ × ℕ × ℕ × ℕ)) xo yo).2.2.2 ≠ 0
      ∧ ((0 : ℤ) + yo).toNat * 6 + ((0 : ℤ) + xo).toNat * 3 + 2 < 12
      ∧ ((0 : ℕ) = ((0 : ℤ) + yo).toNat * 6 + ((0 : ℤ) + xo).toNat * 3
         ∨ (0 : ℕ) = ((0 : ℤ) + yo).toNat * 6 + ((0 : ℤ) + xo).toNat * 3 + 1
         ∨ (0 : ℕ) = ((0 : ℤ) + yo).toNat * 6 + ((0 : ℤ) + xo).toNat * 3 + 2) := by
  exact overlay_image_modifies_only_inbounds_rgb (fun _ => 0) 12 2 2 6
    { width := 1, height := 1, pixel := fun _ _ => (9, 8, 7, 255) } 0 0 0 (by decide)

/-- The bilinear sampler's accept region is right-open: at a 1×1 sprite the
cursor-space point `(u, v) = (1/2, 0)` lies inside the claimed closed box
`[-0.5, w-0.5] × [-0.5, h-0.5]`, yet `sample_bilinear_fast` returns no
sample (the code rejects `u ≥ w - 0.5`). -/
theorem sample_bilinear_boundary_closed_box_none :
    sample_bilinear_fast ⟨[10, 20, 30, 40], 1, 1⟩ (1 / 2) 0 = none
    ∧ (-(1 / 2) : ℚ) ≤ 1 / 2 ∧ ((1 : ℚ) / 2) ≤ ((1 : ℕ) : ℚ) - 1 / 2
    ∧ (-(1 / 2) : ℚ) ≤ 0 ∧ (0 : ℚ) ≤ ((1 : ℕ) : ℚ) - 1 / 2 := by
  refine ⟨?_, by norm_num, by norm_num, by norm_num, by norm_num⟩
  rw [sample_bilinear_fast, if_pos]
  norm_num

/-- Claim C9 (amended): the sampler returns no sample exactly when `(u, v)`
is outside the right-open box `[-0.5, w-0.5) × [-0.5, h-0.5)`; the clamped
texel byte index stays inside the sprite data (so texel coordinates are in
`[0, w-1] × [0, h-1]`); every destination pixel the compositor visits has its
three RGB byte indices inside the frame buffer; and a frame byte the
compositor changed lies inside the frame buffer. -/
theorem compositor_bounds_spec (cursor : CursorSprite) (x y : ℚ) (cx cy : ℤ)
    (frame : ℕ → ℕ) (frameLen frameWidth : ℕ) (j : ℕ)
    (hw : 1 ≤ cursor.width) (hh : 1 ≤ cursor.height) :
    (sample_bilinear_fast cursor x y = none ↔
      (x < -(1 / 2) ∨ y < -(1 / 2) ∨ (cursor.width : ℚ) - 1 / 2 ≤ x ∨
        (cursor.height : ℚ) - 1 / 2 ≤ y))
    ∧ texel_clamped_index cursor cx cy + 3 < 4 * cursor.width * cursor.height
    ∧ (∀ p ∈ composite_draw_pairs frameLen frameWidth cursor x y,
        (p.1.toNat * frameWidth + p.2.toNat) * 4 + 2 < frameLen)
    ∧ (composite_cursor_subpixel frame frameLen frameWidth cursor x y j ≠ frame j →
        j < frameLen) := by
  have hpairs : ∀ p ∈ composite_draw_pairs frameLen frameWidth cursor x y,
      (p.1.toNat * frameWidth + p.2.toNat) * 4 + 2 < frameLen := by
    intro p hp
    obtain ⟨jj, ii, hjy, hix, rfl⟩ := mem_composite_draw_pairs hp
    obtain ⟨hFrames, hHdef⟩ : ∃ hF, frameLen / (frameWidth * 4) = hF := ⟨_, rfl⟩
    rw [hHdef] at hjy
    have hdiv : hFrames * (frameWidth * 4) ≤ frameLen := by
      rw [← hHdef]
      exact Nat.div_mul_le_self _ _
    have hy2 : (max (⌊y⌋ : ℤ) 0 + jj).toNat < hFrames := by omega
    have hx2 : (max (⌊x⌋ : ℤ) 0 + ii).toNat < frameWidth := by omega
    set a : ℕ := (max (⌊y⌋ : ℤ) 0 + jj).toNat
    set b : ℕ := (max (⌊x⌋ : ℤ) 0 + ii).toNat
    have h4 : a * frameWidth + b + 1 ≤ hFrames * frameWidth := by
      have ha1 : a + 1 ≤ hFrames := hy2
      have hstepa : a * frameWidth + frameWidth ≤ hFrames * frameWidth := by
        calc a * frameWidth + frameWidth = (a + 1) * frameWidth := by ring
          _ ≤ hFrames * frameWidth := Nat.mul_le_mul_right _ ha1
      omega
    calc (a * frameWidth + b) * 4 + 2 < (a * frameWidth + b + 1) * 4 := by omega
      _ ≤ hFrames * frameWidth * 4 := Nat.mul_le_mul_right _ h4
      _ = hFrames * (frameWidth * 4) := by ring
      _ ≤ frameLen := hdiv
  refine ⟨?_, ?_, hpairs, ?_⟩
  · rw [sample_bilinear_fast]
    by_cases hc : x < -(1 / 2) ∨ y < -(1 / 2) ∨ (cursor.width : ℚ) - 1 / 2 ≤ x ∨
        (cursor.height : ℚ) - 1 / 2 ≤ y
    · rw [if_pos hc]
      exact iff_of_true rfl hc
    · rw [if_neg hc]
      exact iff_of_false (by simp) hc
  · rw [texel_clamped_index]
    have hcx : (min (max cx 0) ((cursor.width : ℤ) - 1)).toNat ≤ cursor.width - 1 := by
      have := min_le_right (max cx 0) ((cursor.width : ℤ) - 1)
      omega
    have hcy : (min (max cy 0) ((cursor.height : ℤ) - 1)).toNat ≤ cursor.height - 1 := by
      have := min_le_right (max cy 0) ((cursor.height : ℤ) - 1)
      omega
    set a : ℕ := (min (max cy 0) ((cursor.height : ℤ) - 1)).toNat
    set b : ℕ := (min (max cx 0) ((cursor.width : ℤ) - 1)).toNat
    have h4 : a * cursor.width + b + 1 ≤ cursor.height * cursor.width := by
      have hstepa : a * cursor.width + cursor.width ≤ cursor.height * cursor.width := by
        calc a * cursor.width + cursor.width = (a + 1) * cursor.width := by ring
          _ ≤ cursor.height * cursor.width := Nat.mul_le_mul_right _ (by omega)
      omega
    calc (a * cursor.width + b) * 4 + 3 < (a * cursor.width + b + 1) * 4 := by omega
      _ ≤ cursor.height * cursor.width * 4 := Nat.mul_le_mul_right _ h4
      _ = 4 * cursor.width * cursor.height := by ring
  · intro hchanged
    have hstep : ∀ (fr : ℕ → ℕ) (p : ℤ × ℤ) (jq : ℕ),
        compositeStep frameWidth cursor x y fr p jq ≠ fr jq →
        (jq = (p.1.toNat * frameWidth + p.2.toNat) * 4
          ∨ jq = (p.1.toNat * frameWidth + p.2.toNat) * 4 + 1
          ∨ jq = (p.1.toNat * frameWidth + p.2.toNat) * 4 + 2) := by
      intro fr p jq h
      rw [compositeStep] at h
      rcases hs : sample_bilinear_fast cursor ((p.2 : ℚ) - x) ((p.1 : ℚ) - y) with _ | rgba
      · rw [hs] at h
        exact absurd rfl h
      · obtain ⟨r, g, b, aC⟩ := rgba
        rw [hs] at h
        dsimp only at h
        by_cases ha : (0 : ℚ) < (aC : ℚ) / 255
        · rw [if_pos ha] at h
          by_cases hj1 : jq = (p.1.toNat * frameWidth + p.2.toNat) * 4
          · exact Or.inl hj1
          by_cases hj2 : jq = (p.1.toNat * frameWidth + p.2.toNat) * 4 + 1
          · exact Or.inr (Or.inl hj2)
          by_cases hj3 : jq = (p.1.toNat * frameWidth + p.2.toNat) * 4 + 2
          · exact Or.inr (Or.inr hj3)
          exfalso
          simp only [hj1, hj2, hj3, if_false] at h
          exact h rfl
        · rw [if_neg ha] at h
          exact absurd rfl h
    rw [composite_cursor_subpixel] at hchanged
    obtain ⟨p, hpmem, hP⟩ := foldl_apply_ne _ _ hstep _ frame j hchanged
    have := hpairs p hpmem
    omega

/-- Concrete run of claim C9's theorem at a 2×2 sprite, a 4-byte frame row
and the placement `(x, y) = (1/4, 0)`. -/
theorem compositor_bounds_spec_witness :
    (sample_bilinear_fast ⟨List.replicate 16 7, 2, 2⟩ (1 / 4) 0 = none ↔
      ((1 : ℚ) / 4 < -(1 / 2) ∨ (0 : ℚ) < -(1 / 2) ∨ ((2 : ℕ) : ℚ) - 1 / 2 ≤ 1 / 4 ∨
        ((2 : ℕ) : ℚ) - 1 / 2 ≤ 0))
    ∧ texel_clamped_index ⟨List.replicate 16 7, 2, 2⟩ 5 (-3) + 3 < 4 * 2 * 2
    ∧ (∀ p ∈ composite_draw_pairs 16 2 ⟨List.replicate 16 7, 2, 2⟩ (1 / 4) 0,
        (p.1.toNat * 2 + p.2.toNat) * 4 + 2 < 16)
    ∧ (composite_cursor_subpixel (fun _ => 0) 16 2 ⟨List.replicate 16 7, 2, 2⟩ (1 / 4) 0 0
        ≠ (fun _ : ℕ => (0 : ℕ)) 0 → (0 : ℕ) < 16) :=
  compositor_bounds_spec ⟨List.replicate 16 7, 2, 2⟩ (1 / 4) 0 5 (-3) (fun _ => 0) 16 2 0
    (by norm_num) (by norm_num)

/-! ## Claim C8 — Catmull-Rom sample counts and endpoint recovery -/

/-- `f32::EPSILON` is positive. -/
theorem F32_EPSILON_pos : 0 < F32_EPSILON := by
  rw [F32_EPSILON]
  positivity

/-- Evaluating a linear blend at its own start parameter returns the start
point, in both the ε-degenerate and the regular branch. -/
theorem interpolate_points_at_start (tEnd tStart : ℝ) (pS pE : CPoint) :
    interpolate_points tEnd tStart tStart pS pE = pS := by
  rw [interpolate_points]
  by_cases heps : |tEnd - tStart| < F32_EPSILON
  · rw [if_pos heps, if_pos le_rfl]
    ext <;> simp
  · rw [if_neg heps]
    have hne : tEnd - tStart ≠ 0 := by
      intro h
      exact heps (by rw [h]; simpa using F32_EPSILON_pos)
    ext <;> simp [div_self hne]

/-- Evaluating a linear blend at its end parameter returns the end point,
provided the parameter interval is not collapsed. -/
theorem interpolate_points_at_end (tEnd tStart : ℝ) (pS pE : CPoint) (h : tStart < tEnd) :
    interpolate_points tEnd tStart tEnd pS pE = pE := by
  rw [interpolate_points]
  by_cases heps : |tEnd - tStart| < F32_EPSILON
  · rw [if_pos heps, if_neg (not_le.mpr h)]
    ext <;> simp
  · rw [if_neg heps]
    have hne : tEnd - tStart ≠ 0 := sub_ne_zero.mpr h.ne'
    ext <;> simp [div_self hne]

/-- A linear blend of two points with the same position has that position
(the two weights always sum to 1). -/
theorem interpolate_points_xy_of_eq (tEnd tStart t : ℝ) (pS pE : CPoint)
    (hx : pS.x = pE.x) (hy : pS.y = pE.y) :
    (interpolate_points tEnd tStart t pS pE).x = pS.x
    ∧ (interpolate_points tEnd tStart t pS pE).y = pS.y := by
  rw [interpolate_points]
  by_cases heps : |tEnd - tStart| < F32_EPSILON
  · rw [if_pos heps]
    by_cases ht : t ≤ tStart
    · rw [if_pos ht]
      constructor <;> simp
    · rw [if_neg ht]
      constructor <;> simp [hx, hy]
  · rw [if_neg heps]
    have hne : tEnd - tStart ≠ 0 := by
      intro h
      exact heps (by rw [h]; simpa using F32_EPSILON_pos)
    constructor
    · show (tEnd - t) / (tEnd - tStart) * pS.x + (t - tStart) / (tEnd - tStart) * pE.x = pS.x
      rw [← hx]
      field_simp
      ring
    · show (tEnd - t) / (tEnd - tStart) * pS.y + (t - tStart) / (tEnd - tStart) * pE.y = pS.y
      rw [← hy]
      field_simp
      ring

/-- Knots produced by `calculate_t_j` are non-decreasing. -/
theorem calculate_t_j_le (tI : ℝ) (pI pJ : CPoint) (alpha : ℝ) :
    tI ≤ calculate_t_j tI pI pJ alpha := by
  rw [calculate_t_j]
  have : (0 : ℝ) ≤ (Real.sqrt ((pJ.x - pI.x) ^ 2 + (pJ.y - pI.y) ^ 2)) ^ alpha :=
    Real.rpow_nonneg (Real.sqrt_nonneg _) _
  linarith

/-- A collapsed knot interval forces coincident positions (for `α ≥ 0`; at
`α = 0` the interval is never collapsed since `x^0 = 1`). -/
theorem pos_eq_of_calculate_t_j_eq (tI : ℝ) (pI pJ : CPoint) (alpha : ℝ)
    (halpha : 0 ≤ alpha) (h : calculate_t_j tI pI pJ alpha = tI) :
    pI.x = pJ.x ∧ pI.y = pJ.y := by
  rw [calculate_t_j] at h
  have hz : (Real.sqrt ((pJ.x - pI.x) ^ 2 + (pJ.y - pI.y) ^ 2)) ^ alpha = 0 := by linarith
  have hs : Real.sqrt ((pJ.x - pI.x) ^ 2 + (pJ.y - pI.y) ^ 2) = 0 := by
    rcases eq_or_lt_of_le halpha with h0 | h0
    · exfalso
      rw [← h0, Real.rpow_zero] at hz
      norm_num at hz
    · by_contra hne
      have hpos : 0 < Real.sqrt ((pJ.x - pI.x) ^ 2 + (pJ.y - pI.y) ^ 2) :=
        lt_of_le_of_ne (Real.sqrt_nonneg _) (Ne.symm hne)
      have := Real.rpow_pos_of_pos hpos alpha
      linarith
  have hsum : (pJ.x - pI.x) ^ 2 + (pJ.y - pI.y) ^ 2 = 0 := by
    have h1 := Real.sqrt_eq_zero'.mp hs
    nlinarith [sq_nonneg (pJ.x - pI.x), sq_nonneg (pJ.y - pI.y)]
  constructor
  · have : (pJ.x - pI.x) ^ 2 = 0 := by nlinarith [sq_nonneg (pJ.y - pI.y)]
    have := pow_eq_zero_iff (n := 2) (by norm_num) |>.mp this
    linarith [sub_eq_zero.mp this]
  · have : (pJ.y - pI.y) ^ 2 = 0 := by nlinarith [sq_nonneg (pJ.x - pI.x)]
    have := pow_eq_zero_iff (n := 2) (by norm_num) |>.mp this
    linarith [sub_eq_zero.mp this]

/-- The Barry-Goldman pyramid evaluated at the left sampling endpoint `t₁`
recovers `P₁`'s position, also in every degenerate knot configuration. -/
theorem catmullPyramid_at_left (t0 t1 t2 t3 : ℝ) (p0 p1 p2 p3 : CPoint)
    (h01 : t0 ≤ t1)
    (hdeg01 : t1 = t0 → p0.x = p1.x ∧ p0.y = p1.y) :
    (catmullPyramid t0 t1 t2 t3 p0 p1 p2 p3 t1).x = p1.x
    ∧ (catmullPyramid t0 t1 t2 t3 p0 p1 p2 p3 t1).y = p1.y := by
  rcases h01.eq_or_lt with h | h
  · subst h
    simp only [catmullPyramid, interpolate_points_at_start]
    exact hdeg01 rfl
  · simp only [catmullPyramid, interpolate_points_at_start]
    rw [interpolate_points_at_end _ _ _ _ h]
    exact interpolate_points_xy_of_eq _ _ _ _ _ rfl rfl

/-- The Barry-Goldman pyramid evaluated at the right sampling endpoint `t₂`
recovers `P₂`'s position, also in every degenerate knot configuration. -/
theorem catmullPyramid_at_right (t0 t1 t2 t3 : ℝ) (p0 p1 p2 p3 : CPoint)
    (h01 : t0 ≤ t1) (h12 : t1 ≤ t2)
    (hdeg01 : t1 = t0 → p0.x = p1.x ∧ p0.y = p1.y)
    (hdeg12 : t2 = t1 → p1.x = p2.x ∧ p1.y = p2.y) :
    (catmullPyramid t0 t1 t2 t3 p0 p1 p2 p3 t2).x = p2.x
    ∧ (catmullPyramid t0 t1 t2 t3 p0 p1 p2 p3 t2).y = p2.y := by
  rcases h12.eq_or_lt with h | h
  · subst h
    rcases h01.eq_or_lt with h0 | h0
    · subst h0
      simp only [catmullPyramid, interpolate_points_at_start]
      exact ⟨(hdeg01 rfl).1.trans (hdeg12 rfl).1, (hdeg01 rfl).2.trans (hdeg12 rfl).2⟩
    · simp only [catmullPyramid, interpolate_points_at_start]
      rw [interpolate_points_at_end _ _ _ _ h0]
      exact hdeg12 rfl
  · simp only [catmullPyramid, interpolate_points_at_start]
    rw [interpolate_points_at_end _ _ _ _ h]
    rw [interpolate_points_at_end _ _ _ _ h]
    exact interpolate_points_xy_of_eq _ _ _ _ _ rfl rfl

/-- `linspace` returns exactly the requested number of samples. -/
theorem linspace_length (start stop : ℝ) (n : ℕ) : (linspace start stop n).length = n := by
  rw [linspace]
  rcases n with _ | _ | n <;> simp

/-- The first `linspace` sample is the start parameter. -/
theorem linspace_head? (start stop : ℝ) (n : ℕ) (hn : 1 ≤ n) :
    (linspace start stop n).head? = some start := by
  rw [linspace]
  rcases n with _ | _ | n
  · omega
  · simp
  · rw [if_neg (by omega), if_neg (by omega), List.range_succ_eq_map]
    simp

/-- The last `linspace` sample is the stop parameter (for `n ≥ 2`). -/
theorem linspace_getLast? (start stop : ℝ) (n : ℕ) (hn : 2 ≤ n) :
    (linspace start stop n).getLast? = some stop := by
  rw [linspace, if_neg (by omega), if_neg (by omega)]
  obtain ⟨m, rfl⟩ : ∃ m, n = m + 2 := ⟨n - 2, by omega⟩
  rw [List.range_succ, List.map_append]
  rw [List.getLast?_append]
  simp only [List.map_cons, List.map_nil, List.getLast?_singleton, Option.some.injEq]
  have hm : ((m + 2 - 1 : ℕ) : ℝ) ≠ 0 := by
    push_cast
    positivity
  field_simp

/-- Claim C8 (amended): `catmull_rom_spline` returns exactly `N` points
(empty for `N = 0`); for `N ≥ 1` the first point carries `P₁`'s position and
for `N ≥ 2` the last point carries `P₂`'s position — exactly, in exact
arithmetic, including collinear and coincident control points (`α ≥ 0`).
Point equality including the interpolated timestamp can fail for coincident
control points (see the counterexample). -/
theorem catmull_rom_spline_endpoint_positions (p0 p1 p2 p3 : CPoint) (numPoints : ℕ)
    (alpha : ℝ) (halpha : 0 ≤ alpha) :
    (catmull_rom_spline p0 p1 p2 p3 numPoints alpha).length = numPoints
    ∧ (numPoints = 0 → catmull_rom_spline p0 p1 p2 p3 numPoints alpha = [])
    ∧ (1 ≤ numPoints → ∃ q, (catmull_rom_spline p0 p1 p2 p3 numPoints alpha).head? = some q
        ∧ q.x = p1.x ∧ q.y = p1.y)
    ∧ (2 ≤ numPoints → ∃ q, (catmull_rom_spline p0 p1 p2 p3 numPoints alpha).getLast? = some q
        ∧ q.x = p2.x ∧ q.y = p2.y) := by
  refine ⟨?_, ?_, ?_, ?_⟩
  · rw [catmull_rom_spline, List.length_map, linspace_length]
  · intro h
    subst h
    rw [catmull_rom_spline]
    rw [show linspace (calculate_t_j 0 p0 p1 alpha)
      (calculate_t_j (calculate_t_j 0 p0 p1 alpha) p1 p2 alpha) 0 = [] from by rw [linspace]; simp]
    rfl
  · intro hn
    rw [catmull_rom_spline, List.head?_map, linspace_head? _ _ _ hn]
    refine ⟨_, rfl, ?_⟩
    exact catmullPyramid_at_left 0 (calculate_t_j 0 p0 p1 alpha)
      (calculate_t_j (calculate_t_j 0 p0 p1 alpha) p1 p2 alpha)
      (calculate_t_j (calculate_t_j (calculate_t_j 0 p0 p1 alpha) p1 p2 alpha) p2 p3 alpha)
      p0 p1 p2 p3 (calculate_t_j_le 0 p0 p1 alpha)
      (fun h => pos_eq_of_calculate_t_j_eq 0 p0 p1 alpha halpha h)
  · intro hn
    rw [catmull_rom_spline, List.getLast?_map, linspace_getLast? _ _ _ hn]
    refine ⟨_, rfl, ?_⟩
    exact catmullPyramid_at_right 0 (calculate_t_j 0 p0 p1 alpha)
      (calculate_t_j (calculate_t_j 0 p0 p1 alpha) p1 p2 alpha)
      (calculate_t_j (calculate_t_j (calculate_t_j 0 p0 p1 alpha) p1 p2 alpha) p2 p3 alpha)
      p0 p1 p2 p3 (calculate_t_j_le 0 p0 p1 alpha)
      (calculate_t_j_le (calculate_t_j 0 p0 p1 alpha) p1 p2 alpha)
      (fun h => pos_eq_of_calculate_t_j_eq 0 p0 p1 alpha halpha h)
      (fun h => pos_eq_of_calculate_t_j_eq (calculate_t_j 0 p0 p1 alpha) p1 p2 alpha halpha h)

/-- Concrete run of claim C8's theorem at `N = 3` over a generic quadruple. -/
theorem catmull_rom_spline_endpoint_positions_witness :
    (catmull_rom_spline ⟨0, 0, 0⟩ ⟨1, 2, 10⟩ ⟨3, 4, 20⟩ ⟨5, 6, 30⟩ 3 (1 / 2)).length = 3
    ∧ (3 = 0 → catmull_rom_spline ⟨0, 0, 0⟩ ⟨1, 2, 10⟩ ⟨3, 4, 20⟩ ⟨5, 6, 30⟩ 3 (1 / 2) = [])
    ∧ (1 ≤ 3 → ∃ q, (catmull_rom_spline ⟨0, 0, 0⟩ ⟨1, 2, 10⟩ ⟨3, 4, 20⟩ ⟨5, 6, 30⟩
        3 (1 / 2)).head? = some q ∧ q.x = (1 : ℝ) ∧ q.y = (2 : ℝ))
    ∧ (2 ≤ 3 → ∃ q, (catmull_rom_spline ⟨0, 0, 0⟩ ⟨1, 2, 10⟩ ⟨3, 4, 20⟩ ⟨5, 6, 30⟩
        3 (1 / 2)).getLast? = some q ∧ q.x = (3 : ℝ) ∧ q.y = (4 : ℝ)) :=
  catmull_rom_spline_endpoint_positions ⟨0, 0, 0⟩ ⟨1, 2, 10⟩ ⟨3, 4, 20⟩ ⟨5, 6, 30⟩ 3 (1 / 2)
    (by norm_num)

/-- The coincident-control-point counterexample to claim C8 as stated: with
`P₀ = P₁` in position but carrying different timestamps, `N = 1` returns a
single point at `P₁`'s position but with `P₀`'s timestamp `0`, so the
returned point is not equal to `P₁`. -/
theorem catmull_rom_single_sample_not_equal_p1 :
    catmull_rom_spline ⟨0, 0, 0⟩ ⟨0, 0, 100⟩ ⟨1, 0, 200⟩ ⟨2, 0, 300⟩ 1 (1 / 2)
      = [⟨0, 0, 0⟩]
    ∧ ((⟨0, 0, 0⟩ : CPoint) ≠ ⟨0, 0, 100⟩) := by
  have ht1 : calculate_t_j 0 ⟨0, 0, 0⟩ ⟨0, 0, 100⟩ (1 / 2) = 0 := by
    rw [calculate_t_j]
    norm_num [Real.zero_rpow]
  have ht2 : calculate_t_j 0 ⟨0, 0, 100⟩ ⟨1, 0, 200⟩ (1 / 2) = 1 := by
    rw [calculate_t_j]
    norm_num [Real.one_rpow]
  constructor
  · rw [catmull_rom_spline, ht1, ht2]
    rw [show linspace 0 1 1 = [0] from by rw [linspace]; norm_num]
    rw [List.map_singleton]
    congr 1
    simp only [catmullPyramid, interpolate_points_at_start]
  · intro h
    have := congrArg CPoint.timestamp_ms h
    norm_num at this

/-! ## Claims C4/C5 — kinematic target structure -/

/-- The clamped inter-anchor distance is nonnegative. -/
theorem segDs_nonneg (s0 s1 : ℝ) : 0 ≤ segDs s0 s1 := le_max_right _ _

/-- The clamped inter-anchor duration is positive. -/
theorem segDt_pos (t0 t1 : ℝ) : 0 < segDt t0 t1 :=
  lt_of_lt_of_le (by norm_num) (le_max_right _ _)

/-- The solved peak velocity is nonnegative. -/
theorem segVPeak_nonneg (ds dt : ℝ) (hdt : 0 ≤ dt) : 0 ≤ segVPeak ds dt := by
  rw [segVPeak]
  apply le_min
  · split
    · exact le_max_right _ _
    · have : (0 : ℝ) ≤ ACCELERATION_MAX_PX_PER_SEC2 := by
        rw [ACCELERATION_MAX_PX_PER_SEC2]
        norm_num
      nlinarith
  · rw [VELOCITY_MAX_PX_PER_SEC]
    norm_num

/-- The distance-matching scale is nonnegative. -/
theorem segScale_nonneg (ds dt : ℝ) : 0 ≤ segScale ds dt := by
  rw [segScale]
  split
  · exact le_max_right _ _
  · norm_num

/-- The effective acceleration is nonnegative. -/
theorem segAEff_nonneg (ds dt : ℝ) : 0 ≤ segAEff ds dt := by
  rw [segAEff]
  apply mul_nonneg _ (segScale_nonneg ds dt)
  rw [ACCELERATION_MAX_PX_PER_SEC2]
  norm_num

/-- The effective acceleration time is nonnegative. -/
theorem segTAccEff_nonneg (ds dt : ℝ) (hdt : 0 ≤ dt) : 0 ≤ segTAccEff ds dt := by
  rw [segTAccEff]
  split
  · next h =>
    apply div_nonneg _ (le_trans (by norm_num) h.le)
    rw [segVEff]
    exact mul_nonneg (segVPeak_nonneg ds dt hdt) (segScale_nonneg ds dt)
  · exact le_rfl

/-- At elapsed time `0` the three-phase profile has covered no distance. -/
theorem segSRel_zero (ds dt : ℝ) (hdt : 0 ≤ dt) : segSRel ds dt 0 = 0 := by
  rw [segSRel, if_pos (segTAccEff_nonneg ds dt hdt)]
  ring

/-- Timestamps of one segment's target run: the frame-cadence arithmetic
progression starting at the segment's starting anchor timestamp, then the
ending anchor timestamp. -/
theorem segmentTargets_map_ts (sp : List CPoint) (cum : List ℝ) (dtF s0 s1 t0 t1 : ℝ) :
    (segmentTargets sp cum dtF s0 s1 t0 t1).map (·.timestamp_ms)
      = ((List.range (segN t0 t1 dtF)).map fun (k : ℕ) => t0 + ((k : ℝ) * dtF) * 1000) ++ [t1] := by
  rw [segmentTargets, List.map_append, List.map_map]
  rfl

/-- `generate_targets_with_click_constraints` in its non-degenerate regime is
the concatenation of per-segment target runs. -/
theorem generate_targets_eq_flatMap (rawPoints splinePoints : List CPoint) (baseTs : ℝ)
    (frameRate : ℤ) (hr : 2 ≤ rawPoints.length) (hs : 2 ≤ splinePoints.length)
    (harc : 0 < (cumulative_lengths splinePoints).getLastD 0) :
    generate_targets_with_click_constraints rawPoints splinePoints baseTs frameRate
      = (List.range (rawPoints.length - 1)).flatMap fun seg =>
          segmentTargets splinePoints (cumulative_lengths splinePoints)
            (1 / (if 0 < frameRate then (frameRate : ℝ) else 60))
            ((clickAnchorsS rawPoints splinePoints).getD seg 0)
            ((clickAnchorsS rawPoints splinePoints).getD (seg + 1) 0)
            ((clickAnchorsT rawPoints).getD seg 0)
            ((clickAnchorsT rawPoints).getD (seg + 1) 0) := by
  rw [generate_targets_with_click_constraints, if_neg (by omega), if_neg (not_le.mpr harc)]

/-- Chains of nondecreasing values over a mapped range. -/
theorem chain_map_range_of_mono {α : Type} [Preorder α] (f : ℕ → α)
    (hf : ∀ k, f k ≤ f (k + 1)) (n : ℕ) :
    List.Chain' (· ≤ ·) ((List.range n).map f) := by
  rw [List.chain'_map]
  rw [List.chain'_iff_get]
  intro i hi
  simp only [List.get_eq_getElem, List.getElem_range]
  exact hf i

/-- The last timestamp emitted by a segment's frame-cadence loop does not
exceed the segment's ending anchor timestamp, for positive frame steps of at
least one microsecond (`frame_rate ≤ 10⁶`). -/
theorem segN_last_le (t0 t1 dtF : ℝ) (h1 : 0 < dtF) (h2 : 1 / 1000000 ≤ dtF)
    (h3 : t0 ≤ t1) :
    t0 + (((segN t0 t1 dtF - 1 : ℕ) : ℝ) * dtF) * 1000 ≤ t1 := by
  rcases le_or_lt (1 / 1000000 : ℝ) ((t1 - t0) / 1000) with hc | hc
  · have hdt : segDt t0 t1 = (t1 - t0) / 1000 := max_eq_left hc
    have hn : 1 ≤ segN t0 t1 dtF := by
      rw [segN]
      exact Nat.ceil_pos.mpr (div_pos (segDt_pos t0 t1) h1)
    have hlt : ((segN t0 t1 dtF - 1 : ℕ) : ℝ) < segDt t0 t1 / dtF := by
      apply Nat.lt_ceil.mp
      rw [segN] at hn ⊢
      omega
    rw [lt_div_iff₀ h1] at hlt
    rw [hdt] at hlt
    nlinarith
  · have hdt : segDt t0 t1 = 1 / 1000000 := max_eq_right hc.le
    have hn1 : segN t0 t1 dtF = 1 := by
      have hle : segDt t0 t1 / dtF ≤ 1 := by
        rw [hdt, div_le_one h1]
        exact h2
      have hpos : 0 < segDt t0 t1 / dtF := div_pos (segDt_pos t0 t1) h1
      rw [segN]
      have hceil1 : ⌈segDt t0 t1 / dtF⌉₊ ≤ 1 := by
        rw [show (1 : ℕ) = ((1 : ℕ) : ℕ) from rfl]
        exact Nat.ceil_le.mpr (by exact_mod_cast hle)
      have hceil2 : 1 ≤ ⌈segDt t0 t1 / dtF⌉₊ := Nat.ceil_pos.mpr hpos
      omega
    rw [hn1]
    norm_num
    exact h3

/-- One segment's emitted timestamp block is a nondecreasing chain. -/
theorem segment_block_chain (t0 t1 dtF : ℝ) (h1 : 0 < dtF) (h2 : 1 / 1000000 ≤ dtF)
    (h3 : t0 ≤ t1) :
    List.Chain' (· ≤ ·)
      (((List.range (segN t0 t1 dtF)).map fun (k : ℕ) => t0 + ((k : ℝ) * dtF) * 1000) ++ [t1]) := by
  rw [List.chain'_append]
  refine ⟨?_, List.chain'_singleton _, ?_⟩
  · apply chain_map_range_of_mono
    intro k
    have : (k : ℝ) * dtF ≤ (k + 1 : ℕ) * dtF := by
      apply mul_le_mul_of_nonneg_right _ h1.le
      exact_mod_cast Nat.le_succ k
    nlinarith
  · intro xx hx yy hy
    simp only [List.head?_cons, Option.mem_def, Option.some.injEq] at hy
    subst hy
    have hn : 1 ≤ segN t0 t1 dtF := by
      rw [segN]
      exact Nat.ceil_pos.mpr (div_pos (segDt_pos t0 t1) h1)
    obtain ⟨m, hm⟩ : ∃ m, segN t0 t1 dtF = m + 1 := ⟨_, (Nat.succ_pred_eq_of_pos hn).symm⟩
    rw [hm, List.range_succ, List.map_append, List.getLast?_append] at hx
    simp only [List.map_cons, List.map_nil, List.getLast?_singleton, Option.or_some,
      Option.mem_def, Option.some.injEq] at hx
    subst hx
    have := segN_last_le t0 t1 dtF h1 h2 h3
    rw [hm] at this
    simpa using this

/-- Every segment's emit loop runs at least once. -/
theorem segN_pos (t0 t1 dtF : ℝ) (h : 0 < dtF) : 1 ≤ segN t0 t1 dtF := by
  rw [segN]
  exact Nat.ceil_pos.mpr (div_pos (segDt_pos _ _) h)

/-- Concatenating per-segment timestamp blocks preserves the nondecreasing
chain: each block is a chain starting at its segment's anchor timestamp, and
each block's final element is the next segment's anchor timestamp. -/
theorem chain_flatMap_blocks (t : ℕ → ℝ) (n : ℕ → ℕ) (dtF : ℝ) (m : ℕ)
    (hblock : ∀ seg, seg < m → List.Chain' (· ≤ ·)
      (((List.range (n seg)).map fun (k : ℕ) => t seg + ((k : ℝ) * dtF) * 1000)
        ++ [t (seg + 1)]))
    (hn : ∀ seg, seg < m → 1 ≤ n seg) :
    List.Chain' (· ≤ ·)
      ((List.range m).flatMap fun seg =>
        ((List.range (n seg)).map fun (k : ℕ) => t seg + ((k : ℝ) * dtF) * 1000)
          ++ [t (seg + 1)])
    ∧ (1 ≤ m → ((List.range m).flatMap fun seg =>
        ((List.range (n seg)).map fun (k : ℕ) => t seg + ((k : ℝ) * dtF) * 1000)
          ++ [t (seg + 1)]).getLast? = some (t m)) := by
  induction m with
  | zero => exact ⟨by simp, by omega⟩
  | succ m ih =>
    obtain ⟨ih1, ih2⟩ := ih (fun seg hs => hblock seg (by omega)) (fun seg hs => hn seg (by omega))
    rw [List.range_succ, List.flatMap_append, List.flatMap_singleton]
    constructor
    · rw [List.chain'_append]
      refine ⟨ih1, hblock m (by omega), ?_⟩
      intro xx hx yy hy
      rcases Nat.eq_zero_or_pos m with rfl | hm
      · simp at hx
      · rw [ih2 hm] at hx
        simp only [Option.mem_def, Option.some.injEq] at hx
        subst hx
        obtain ⟨k, hk⟩ : ∃ k, n m = k + 1 := ⟨n m - 1, by have := hn m (by omega); omega⟩
        rw [hk, List.range_succ_eq_map] at hy
        simp only [List.map_cons, List.head?_cons, List.head?_append, Option.or_some,
          Option.mem_def, Option.some.injEq] at hy
        rw [← hy]
        norm_num
    · intro _
      rw [← List.append_assoc, List.getLast?_concat]

/-- Claim C4 (amended): for raw anchors with non-decreasing timestamps, a
spline with at least two points and positive total arc length, and a sane
frame rate (`0 < frame_rate ≤ 10⁶`), the timestamps emitted by
`generate_targets_with_click_constraints` are non-decreasing. They are not
strictly increasing: each segment's final target and the next segment's
first target share the junction anchor's timestamp (see the
counterexample). -/
theorem generate_targets_timestamps_monotone (rawPoints splinePoints : List CPoint)
    (baseTs : ℝ) (frameRate : ℤ)
    (hr : 2 ≤ rawPoints.length) (hs : 2 ≤ splinePoints.length)
    (harc : 0 < (cumulative_lengths splinePoints).getLastD 0)
    (hts : List.Chain' (· ≤ ·) (clickAnchorsT rawPoints))
    (hfr1 : 0 < frameRate) (hfr2 : frameRate ≤ 1000000) :
    List.Chain' (· ≤ ·)
      ((generate_targets_with_click_constraints rawPoints splinePoints baseTs frameRate).map
        (·.timestamp_ms)) := by
  rw [generate_targets_eq_flatMap _ _ _ _ hr hs harc, List.map_flatMap]
  simp only [segmentTargets_map_ts]
  have hfrR : (0 : ℝ) < (frameRate : ℝ) := by exact_mod_cast hfr1
  have h1 : 0 < 1 / (if 0 < frameRate then (frameRate : ℝ) else 60) := by
    rw [if_pos hfr1]
    positivity
  have h2 : (1 / 1000000 : ℝ) ≤ 1 / (if 0 < frameRate then (frameRate : ℝ) else 60) := by
    rw [if_pos hfr1]
    apply one_div_le_one_div_of_le hfrR
    exact_mod_cast hfr2
  have horder : ∀ seg, seg < rawPoints.length - 1 →
      (clickAnchorsT rawPoints).getD seg 0 ≤ (clickAnchorsT rawPoints).getD (seg + 1) 0 := by
    intro seg hseg
    have hlen : (clickAnchorsT rawPoints).length = rawPoints.length := by
      rw [clickAnchorsT, List.length_map]
    have h := List.chain'_iff_get.mp hts seg (by omega)
    rw [List.getD_eq_getElem _ _ (by omega), List.getD_eq_getElem _ _ (by omega)]
    simpa using h
  exact (chain_flatMap_blocks (fun i => (clickAnchorsT rawPoints).getD i 0)
    (fun seg => segN ((clickAnchorsT rawPoints).getD seg 0)
      ((clickAnchorsT rawPoints).getD (seg + 1) 0)
      (1 / (if 0 < frameRate then (frameRate : ℝ) else 60)))
    (1 / (if 0 < frameRate then (frameRate : ℝ) else 60)) (rawPoints.length - 1)
    (fun seg hseg => segment_block_chain _ _ _ h1 h2 (horder seg hseg))
    (fun seg _ => segN_pos _ _ _ h1)).1

/-- Each segment run contains an emitted point at the starting anchor's
timestamp with the starting projection's position (the `k = 0` loop point),
and its exact final point at the ending anchor's timestamp with the ending
projection's position. -/
theorem segmentTargets_anchor_points (sp : List CPoint) (cum : List ℝ) (dtF s0 s1 t0 t1 : ℝ)
    (hdtF : 0 < dtF) :
    (∃ p ∈ segmentTargets sp cum dtF s0 s1 t0 t1,
      p.timestamp_ms = t0 ∧ p.x = (position_at_distance sp cum s0).1
        ∧ p.y = (position_at_distance sp cum s0).2)
    ∧ (∃ p ∈ segmentTargets sp cum dtF s0 s1 t0 t1,
      p.timestamp_ms = t1 ∧ p.x = (position_at_distance sp cum s1).1
        ∧ p.y = (position_at_distance sp cum s1).2) := by
  constructor
  · have harg : s0 + min (segSRel (segDs s0 s1) (segDt t0 t1) (((0 : ℕ) : ℝ) * dtF))
        (segDs s0 s1) = s0 := by
      rw [show ((0 : ℕ) : ℝ) * dtF = 0 from by norm_num]
      rw [segSRel_zero _ _ (segDt_pos t0 t1).le, min_eq_left (segDs_nonneg s0 s1)]
      ring
    refine ⟨(⟨(position_at_distance sp cum
        (s0 + min (segSRel (segDs s0 s1) (segDt t0 t1) (((0 : ℕ) : ℝ) * dtF))
          (segDs s0 s1))).1,
      (position_at_distance sp cum
        (s0 + min (segSRel (segDs s0 s1) (segDt t0 t1) (((0 : ℕ) : ℝ) * dtF))
          (segDs s0 s1))).2,
      t0 + (((0 : ℕ) : ℝ) * dtF) * 1000⟩ : CPoint), ?_, ?_, ?_, ?_⟩
    · rw [segmentTargets]
      apply List.mem_append_left
      exact List.mem_map.mpr ⟨0, List.mem_range.mpr (segN_pos t0 t1 dtF hdtF), rfl⟩
    · show t0 + (((0 : ℕ) : ℝ) * dtF) * 1000 = t0
      push_cast
      ring
    · show (position_at_distance sp cum
        (s0 + min (segSRel (segDs s0 s1) (segDt t0 t1) (((0 : ℕ) : ℝ) * dtF))
          (segDs s0 s1))).1 = (position_at_distance sp cum s0).1
      rw [harg]
    · show (position_at_distance sp cum
        (s0 + min (segSRel (segDs s0 s1) (segDt t0 t1) (((0 : ℕ) : ℝ) * dtF))
          (segDs s0 s1))).2 = (position_at_distance sp cum s0).2
      rw [harg]
  · refine ⟨(⟨(position_at_distance sp cum s1).1,
      (position_at_distance sp cum s1).2, t1⟩ : CPoint), ?_, rfl, rfl, rfl⟩
    rw [segmentTargets]
    apply List.mem_append_right
    exact List.mem_singleton.mpr rfl

/-- Claim C5 (amended): for every raw anchor list (length ≥ 2) and spline
(length ≥ 2, positive total arc length), each segment run ends with an exact
final point at the ending anchor's timestamp, and the target sequence
contains, at every anchor's original timestamp, the position of the spline's
arc-length projection of that anchor — which coincides with the anchor's own
position only when the anchor lies on its nearest spline point (see the
counterexample). -/
theorem generate_targets_projected_anchor_preservation (rawPoints splinePoints : List CPoint)
    (baseTs : ℝ) (frameRate : ℤ)
    (hr : 2 ≤ rawPoints.length) (hs : 2 ≤ splinePoints.length)
    (harc : 0 < (cumulative_lengths splinePoints).getLastD 0) :
    ∀ i < rawPoints.length,
      ∃ p ∈ generate_targets_with_click_constraints rawPoints splinePoints baseTs frameRate,
        p.timestamp_ms = (clickAnchorsT rawPoints).getD i 0
        ∧ p.x = (position_at_distance splinePoints (cumulative_lengths splinePoints)
            ((clickAnchorsS rawPoints splinePoints).getD i 0)).1
        ∧ p.y = (position_at_distance splinePoints (cumulative_lengths splinePoints)
            ((clickAnchorsS rawPoints splinePoints).getD i 0)).2 := by
  intro i hi
  rw [generate_targets_eq_flatMap _ _ _ _ hr hs harc]
  have hdtFpos : 0 < 1 / (if 0 < frameRate then (frameRate : ℝ) else 60) := by
    by_cases h : 0 < frameRate
    · rw [if_pos h]
      have : (0 : ℝ) < (frameRate : ℝ) := by exact_mod_cast h
      positivity
    · rw [if_neg h]
      norm_num
  rcases Nat.eq_zero_or_pos i with rfl | hipos
  · obtain ⟨p, hm, hfields⟩ := (segmentTargets_anchor_points splinePoints
      (cumulative_lengths splinePoints) _ ((clickAnchorsS rawPoints splinePoints).getD 0 0)
      ((clickAnchorsS rawPoints splinePoints).getD 1 0)
      ((clickAnchorsT rawPoints).getD 0 0) ((clickAnchorsT rawPoints).getD 1 0) hdtFpos).1
    exact ⟨p, List.mem_flatMap.mpr ⟨0, List.mem_range.mpr (by omega), hm⟩, hfields⟩
  · obtain ⟨j, rfl⟩ : ∃ j, i = j + 1 := ⟨i - 1, by omega⟩
    obtain ⟨p, hm, hfields⟩ := (segmentTargets_anchor_points splinePoints
      (cumulative_lengths splinePoints) _ ((clickAnchorsS rawPoints splinePoints).getD j 0)
      ((clickAnchorsS rawPoints splinePoints).getD (j + 1) 0)
      ((clickAnchorsT rawPoints).getD j 0) ((clickAnchorsT rawPoints).getD (j + 1) 0)
      hdtFpos).2
    exact ⟨p, List.mem_flatMap.mpr ⟨j, List.mem_range.mpr (by omega), hm⟩, hfields⟩

/-- Concrete raw cursor points for the C5 instance: the second click anchor
sits at `(2, 0)`, off the spline. -/
noncomputable def c5Raw : List CPoint := [⟨0, 0, 0⟩, ⟨2, 0, 1000⟩]

/-- Concrete spline for the C5 instance: a unit horizontal segment. -/
noncomputable def c5Spline : List CPoint := [⟨0, 0, 0⟩, ⟨1, 0, 1000⟩]

theorem c5cum_eq : cumulative_lengths c5Spline = [0, 1] := by
  simp only [c5Spline, cumulative_lengths, cumulativeAux]
  norm_num

theorem c5anchorsT_eq : clickAnchorsT c5Raw = [0, 1000] := by
  simp [clickAnchorsT, c5Raw]

theorem c5anchorsS_eq : clickAnchorsS c5Raw c5Spline = [0, 1] := by
  have h0 : projIndex c5Spline (⟨0, 0, 0⟩ : CPoint) = 0 := by
    simp only [projIndex, c5Spline, List.enum, List.enumFrom, List.foldl]
    norm_num [F64_MAX]
  have h1 : projIndex c5Spline (⟨2, 0, 1000⟩ : CPoint) = 1 := by
    simp only [projIndex, c5Spline, List.enum, List.enumFrom, List.foldl]
    norm_num [F64_MAX]
  simp only [clickAnchorsS, c5Raw, List.map, h0, h1, c5cum_eq]
  simp [monotoneClamp, monotoneClampAux]

theorem c5pad_eval (s : ℝ) (hs0 : 0 ≤ s) (hs1 : s ≤ 1) :
    position_at_distance c5Spline [0, 1] s = (s, 0) := by
  have hb : bsearchPair [0, 1] s 0 1 = (0, 1) := by rw [bsearchPair]; norm_num
  simp only [c5Spline, position_at_distance, List.getLastD_cons, List.getLastD_nil,
    List.length_cons, List.length_nil]
  rw [max_eq_left hs0, min_eq_left hs1]
  norm_num [hb, F64_EPSILON, List.getD]

theorem c5targets_eq :
    generate_targets_with_click_constraints c5Raw c5Spline 0 1
      = [⟨0, 0, 0⟩, ⟨1, 0, 1000⟩] := by
  have hlr : c5Raw.length = 2 := by simp [c5Raw]
  have hls : c5Spline.length = 2 := by simp [c5Spline]
  have hds : segDs 0 1 = 1 := by
    rw [segDs, show (1 : ℝ) - 0 = 1 by norm_num]
    exact max_eq_left (by norm_num)
  have hdt : segDt 0 1000 = 1 := by
    rw [segDt, show ((1000 : ℝ) - 0) / 1000 = 1 by norm_num]
    exact max_eq_left (by norm_num)
  have hN : segN 0 1000 1 = 1 := by
    rw [segN, hdt]
    norm_num
  have hsrel : segSRel (segDs 0 1) (segDt 0 1000) 0 = 0 :=
    segSRel_zero _ _ (segDt_pos 0 1000).le
  have hstage : generate_targets_with_click_constraints c5Raw c5Spline 0 1
      = segmentTargets c5Spline [0, 1] 1 0 1 0 1000 := by
    simp only [generate_targets_with_click_constraints, hlr, hls, c5cum_eq, c5anchorsS_eq,
      c5anchorsT_eq]
    norm_num [List.getLastD_cons, List.getLastD_nil, List.getD, List.range_succ,
      List.range_zero, List.flatMap_cons, List.flatMap_nil]
  rw [hstage, segmentTargets, hN]
  rw [show List.range 1 = [0] from by decide]
  simp only [List.map_cons, List.map_nil, Nat.cast_zero]
  rw [show ((0 : ℝ) * 1) = 0 by norm_num, hsrel, hds]
  rw [show (min (0 : ℝ) 1) = 0 from min_eq_left (by norm_num),
    show ((0 : ℝ) + 0) = 0 by norm_num]
  rw [c5pad_eval 0 le_rfl (by norm_num), c5pad_eval 1 (by norm_num) le_rfl]
  norm_num

/-- Claim C5 counterexample: with spline `[(0,0)@0, (1,0)@1000]` and raw click
anchors `[(0,0)@0, (2,0)@1000]` — all of the claim's hypotheses hold: both
lists have length ≥ 2 and the spline's total arc length is `1 > 0` — the
generated target list evaluates to `[(0,0)@0, (1,0)@1000]`, so no target
carries the second anchor's actual position `(2, 0)` at its timestamp `1000`:
the emitted position is the anchor's arc-length projection onto the spline,
not the anchor's own position. -/
theorem generate_targets_anchor_position_not_preserved :
    2 ≤ c5Raw.length ∧ 2 ≤ c5Spline.length
    ∧ 0 < (cumulative_lengths c5Spline).getLastD 0
    ∧ c5Raw.getD 1 default = ⟨2, 0, 1000⟩
    ∧ generate_targets_with_click_constraints c5Raw c5Spline 0 1
        = [⟨0, 0, 0⟩, ⟨1, 0, 1000⟩]
    ∧ ¬ ∃ p ∈ generate_targets_with_click_constraints c5Raw c5Spline 0 1,
        p.timestamp_ms = 1000 ∧ p.x = 2 := by
  refine ⟨by simp [c5Raw], by simp [c5Spline], by rw [c5cum_eq]; norm_num,
    by simp [c5Raw, List.getD], c5targets_eq, ?_⟩
  rw [c5targets_eq]
  rintro ⟨p, hp, ht, hx⟩
  rcases List.mem_cons.mp hp with rfl | hp2
  · norm_num at ht
  · rcases List.mem_cons.mp hp2 with rfl | h3
    · norm_num at hx
    · exact absurd h3 (List.not_mem_nil p)

/-- Witness for `generate_targets_projected_anchor_preservation` at the
concrete C5 instance, instantiated at anchor index `1`. -/
theorem generate_targets_projected_anchor_preservation_witness :
    (2 ≤ c5Raw.length ∧ 2 ≤ c5Spline.length
      ∧ 0 < (cumulative_lengths c5Spline).getLastD 0 ∧ 1 < c5Raw.length)
    ∧ ∃ p ∈ generate_targets_with_click_constraints c5Raw c5Spline 0 1,
        p.timestamp_ms = (clickAnchorsT c5Raw).getD 1 0
        ∧ p.x = (position_at_distance c5Spline (cumulative_lengths c5Spline)
            ((clickAnchorsS c5Raw c5Spline).getD 1 0)).1
        ∧ p.y = (position_at_distance c5Spline (cumulative_lengths c5Spline)
            ((clickAnchorsS c5Raw c5Spline).getD 1 0)).2 :=
  ⟨⟨by simp [c5Raw], by simp [c5Spline], by rw [c5cum_eq]; norm_num, by simp [c5Raw]⟩,
    generate_targets_projected_anchor_preservation c5Raw c5Spline 0 1
      (by simp [c5Raw]) (by simp [c5Spline]) (by rw [c5cum_eq]; norm_num) 1
      (by simp [c5Raw])⟩

/-- Concrete input for the C4 instance: three collinear cursor points one
second apart, used both as raw points and as the spline. -/
noncomputable def c4Raw : List CPoint := [⟨0, 0, 0⟩, ⟨1, 0, 1000⟩, ⟨2, 0, 2000⟩]

theorem c4cum_eq : cumulative_lengths c4Raw = [0, 1, 2] := by
  simp only [c4Raw, cumulative_lengths, cumulativeAux]
  norm_num

theorem c4anchorsT_eq : clickAnchorsT c4Raw = [0, 1000, 2000] := by
  simp [clickAnchorsT, c4Raw]

theorem c4map_eq :
    (generate_targets_with_click_constraints c4Raw c4Raw 0 1).map (·.timestamp_ms)
      = [0, 1000, 1000, 2000] := by
  have hN1 : segN 0 1000 1 = 1 := by
    rw [segN, segDt, show ((1000 : ℝ) - 0) / 1000 = 1 by norm_num,
      max_eq_left (by norm_num : (1 / 1000000 : ℝ) ≤ 1)]
    norm_num
  have hN2 : segN 1000 2000 1 = 1 := by
    rw [segN, segDt, show ((2000 : ℝ) - 1000) / 1000 = 1 by norm_num,
      max_eq_left (by norm_num : (1 / 1000000 : ℝ) ≤ 1)]
    norm_num
  rw [generate_targets_eq_flatMap _ _ _ _ (by simp [c4Raw]) (by simp [c4Raw])
    (by rw [c4cum_eq]; norm_num), List.map_flatMap]
  simp only [segmentTargets_map_ts, c4anchorsT_eq,
    show (if 0 < (1 : ℤ) then ((1 : ℤ) : ℝ) else 60) = 1 from by norm_num, one_div_one]
  rw [show c4Raw.length - 1 = 2 from by simp [c4Raw],
    show List.range 2 = [0, 1] from by decide]
  simp only [List.flatMap_cons, List.flatMap_nil]
  norm_num [List.getD, hN1, hN2, show List.range 1 = [0] from by decide]

/-- Claim C4 counterexample: with three collinear clicks one second apart
(raw = spline, strictly increasing anchor timestamps, total arc length
`2 > 0`, frame rate `1`), the generated target timestamps evaluate to
`[0, 1000, 1000, 2000]`: the timestamp `1000` appears twice (once as segment
0's exact final point and once as segment 1's first loop point), so the
sequence is not strictly increasing. -/
theorem generate_targets_junction_timestamps_not_strict :
    (2 ≤ c4Raw.length ∧ 0 < (cumulative_lengths c4Raw).getLastD 0
      ∧ List.Chain' (· < ·) (clickAnchorsT c4Raw))
    ∧ (generate_targets_with_click_constraints c4Raw c4Raw 0 1).map (·.timestamp_ms)
        = [0, 1000, 1000, 2000]
    ∧ ¬ List.Chain' (· < ·)
        ((generate_targets_with_click_constraints c4Raw c4Raw 0 1).map (·.timestamp_ms)) := by
  refine ⟨⟨by simp [c4Raw], by rw [c4cum_eq]; norm_num, ?_⟩, c4map_eq, ?_⟩
  · rw [c4anchorsT_eq]
    norm_num [List.chain'_cons]
  · rw [c4map_eq]
    norm_num [List.chain'_cons]

/-- Witness for `generate_targets_timestamps_monotone` at the concrete C4
instance. -/
theorem generate_targets_timestamps_monotone_witness :
    (2 ≤ c4Raw.length ∧ 0 < (cumulative_lengths c4Raw).getLastD 0
      ∧ List.Chain' (· ≤ ·) (clickAnchorsT c4Raw)
      ∧ (0 : ℤ) < 1 ∧ (1 : ℤ) ≤ 1000000)
    ∧ List.Chain' (· ≤ ·)
        ((generate_targets_with_click_constraints c4Raw c4Raw 0 1).map (·.timestamp_ms)) :=
  ⟨⟨by simp [c4Raw], by rw [c4cum_eq]; norm_num,
      by rw [c4anchorsT_eq]; norm_num [List.chain'_cons], by norm_num, by norm_num⟩,
    generate_targets_timestamps_monotone c4Raw c4Raw 0 1 (by simp [c4Raw]) (by simp [c4Raw])
      (by rw [c4cum_eq]; norm_num)
      (by rw [c4anchorsT_eq]; norm_num [List.chain'_cons]) (by norm_num) (by norm_num)⟩

end FocusFrame
